import Mathlib

/-!
# betmates_backend_core: layered errors, protocol translation, field validation

A shallow embedding of the Go packages `errors`, `protocols` and `validation`.

Conventions of the embedding
* A Go `string` is a Lean `String` (a sequence of Unicode code points, that is, a
  Go string holding valid UTF-8); Go's `len` on a string is its UTF-8 byte size.
* A Go `any` is a `Value`: the nil interface, or a dynamic value together with
  what `reflect` and type assertions can observe of it.
* A Go `map[string]interface{}` is an optional association list, `none` being the
  nil map; a `map[ErrorCode]int` is an association list read with `List.lookup`.
* A variadic parameter is a `List`.
* A function that may panic returns `Except String _`, the error side being the
  panic; a returned `LayerError` interface is an `Option`, `none` being nil.
-/

/-! ## Go values -/

/-- The kinds `reflect.Value.Kind` can report for the values of the model. -/
inductive Kind where
  | Invalid
  | Bool
  | Int
  | Float64
  | String
  | Slice
  | Array
  | Map
  | Struct
  | Pointer
deriving DecidableEq, Repr

/-- A Go value of static type `any`. -/
inductive Value where
  /-- the nil interface value -/
  | nil
  | bool (b : Bool)
  | int (i : Int)
  /-- a float64, by its IEEE-754 bit pattern -/
  | float64 (bits : Nat)
  /-- a value of dynamic type `string` -/
  | str (s : String)
  /-- a value of a defined type whose underlying type is `string` -/
  | namedStr (typeName : String) (s : String)
  | slice (elems : List Value)
  | array (elems : List Value)
  | goMap (entries : List (Value × Value))
  | struct (typeName : String) (fields : List (String × Value))
  | pointer (target : Option Value)

namespace Value

/-- Go `reflect.ValueOf(v).Kind()`. -/
def Kind : Value → Kind
  | .nil => .Invalid
  | .bool _ => .Bool
  | .int _ => .Int
  | .float64 _ => .Float64
  | .str _ => .String
  | .namedStr _ _ => .String
  | .slice _ => .Slice
  | .array _ => .Array
  | .goMap _ => .Map
  | .struct _ _ => .Struct
  | .pointer _ => .Pointer

/-- Go `reflect.ValueOf(v).String()`: the underlying string of a value of kind String
(the source calls it on that kind only). -/
def String : Value → String
  | .str s => s
  | .namedStr _ s => s
  | _ => "<Value>"

/-- Go `reflect.ValueOf(v).Len()` on a slice, array or map: the number of elements
(the source calls it on those kinds only). -/
def Len : Value → Nat
  | .slice elems => elems.length
  | .array elems => elems.length
  | .goMap entries => entries.length
  | _ => 0

end Value

/-- Go builtin `len` on a string: its number of bytes. -/
def len (s : String) : Nat := s.utf8ByteSize

/-! ## Package errors -/

namespace errors

abbrev LayerType := String
abbrev ErrorType := String
abbrev ErrorCode := String

/-- Go `map[string]interface{}`; `none` is the nil map. -/
abbrev Details := Option (List (String × Value))

def InfrastructureLayer : LayerType := "infrastructure"
def ApplicationLayer : LayerType := "application"
def DomainLayer : LayerType := "domain"

def ValidationError : ErrorType := "validation"
def AuthenticationError : ErrorType := "authentication"
def AuthorizationError : ErrorType := "authorization"
def NotFoundError : ErrorType := "not_found"
def ConflictError : ErrorType := "conflict"
def BusinessRuleError : ErrorType := "business_rule"
def InfrastructureError : ErrorType := "infrastructure"
def InternalError : ErrorType := "internal"

def ErrInvalidEmail : ErrorCode := "INVALID_EMAIL"
def ErrInvalidPassword : ErrorCode := "INVALID_PASSWORD"
def ErrMissingRequired : ErrorCode := "MISSING_REQUIRED"
def ErrInvalidFormat : ErrorCode := "INVALID_FORMAT"
def ErrInvalidToken : ErrorCode := "INVALID_TOKEN"
def ErrExpiredToken : ErrorCode := "EXPIRED_TOKEN"
def ErrInvalidCredentials : ErrorCode := "INVALID_CREDENTIALS"
def ErrInsufficientPermissions : ErrorCode := "INSUFFICIENT_PERMISSIONS"
def ErrAccessDenied : ErrorCode := "ACCESS_DENIED"
def ErrUserNotFound : ErrorCode := "USER_NOT_FOUND"
def ErrResourceNotFound : ErrorCode := "RESOURCE_NOT_FOUND"
def ErrUserAlreadyExists : ErrorCode := "USER_ALREADY_EXISTS"
def ErrEmailAlreadyTaken : ErrorCode := "EMAIL_ALREADY_TAKEN"
def ErrInvalidBusinessRule : ErrorCode := "INVALID_BUSINESS_RULE"
def ErrInvalidState : ErrorCode := "INVALID_STATE"
def ErrDatabaseConnection : ErrorCode := "DATABASE_CONNECTION"
def ErrExternalService : ErrorCode := "EXTERNAL_SERVICE"
def ErrRepositoryOperation : ErrorCode := "REPOSITORY_OPERATION"

/-- The struct `baseError`, the implementation of the interface `LayerError`. -/
structure baseError where
  layer : LayerType
  code : ErrorCode
  errType : ErrorType
  message : String
  details : Details

/-- The interface `LayerError`, seen through its accessors. -/
abbrev LayerError := baseError

namespace baseError

def Error (e : baseError) : String := e.message

def Layer (e : baseError) : LayerType := e.layer

def Code (e : baseError) : ErrorCode := e.code

/-- The accessor `Type()` (`Type` is reserved in Lean). -/
def ErrType (e : baseError) : ErrorType := e.errType

def Details (e : baseError) : Details := e.details

end baseError

/-- The common prologue of the constructors:
`var d map[string]interface{}; if len(details) > 0 { d = details[0] }`. -/
def firstDetails (details : List Details) : Details :=
  match details with
  | [] => none
  | d :: _ => d

def NewInfrastructureError (code : ErrorCode) (message : String) (details : List Details) :
    LayerError :=
  { layer := InfrastructureLayer
    code := code
    errType := InfrastructureError
    message := message
    details := firstDetails details }

def NewApplicationError (code : ErrorCode) (errType : ErrorType) (message : String)
    (details : List Details) : LayerError :=
  { layer := ApplicationLayer
    code := code
    errType := errType
    message := message
    details := firstDetails details }

def NewDomainError (code : ErrorCode) (errType : ErrorType) (message : String)
    (details : List Details) : LayerError :=
  { layer := DomainLayer
    code := code
    errType := errType
    message := message
    details := firstDetails details }

def NewValidationError (code : ErrorCode) (message : String) (details : List Details) :
    LayerError :=
  NewApplicationError code ValidationError message details

def NewAuthenticationError (code : ErrorCode) (message : String) (details : List Details) :
    LayerError :=
  NewApplicationError code AuthenticationError message details

def NewAuthorizationError (code : ErrorCode) (message : String) (details : List Details) :
    LayerError :=
  NewApplicationError code AuthorizationError message details

def NewNotFoundError (code : ErrorCode) (message : String) (details : List Details) :
    LayerError :=
  NewDomainError code NotFoundError message details

def NewConflictError (code : ErrorCode) (message : String) (details : List Details) :
    LayerError :=
  NewDomainError code ConflictError message details

def NewBusinessRuleError (code : ErrorCode) (message : String) (details : List Details) :
    LayerError :=
  NewDomainError code BusinessRuleError message details

end errors

/-! ## Package net/http: the status constants the handlers use -/

namespace http

def StatusBadRequest : Int := 400
def StatusUnauthorized : Int := 401
def StatusForbidden : Int := 403
def StatusNotFound : Int := 404
def StatusConflict : Int := 409
def StatusGone : Int := 410
def StatusUnprocessableEntity : Int := 422
def StatusFailedDependency : Int := 424
def StatusInternalServerError : Int := 500
def StatusServiceUnavailable : Int := 503

end http

/-! ## Package protocols -/

namespace protocols

open errors

structure ProtocolResponse where
  Error : String
  Code : String
  /-- The field `Type` (`Type` is reserved in Lean). -/
  Typ : String
  Details : Details

structure HTTPErrorResponse extends ProtocolResponse where
  HTTPStatus : Int

structure GRPCErrorResponse extends ProtocolResponse where
  GRPCCode : Int
  GRPCMessage : String

structure DefaultHTTPErrorHandler where
  errorMapping : List (ErrorCode × Int)

def getDefaultErrorMapping : List (ErrorCode × Int) :=
  [ (ErrInvalidEmail, http.StatusBadRequest),
    (ErrInvalidPassword, http.StatusBadRequest),
    (ErrMissingRequired, http.StatusBadRequest),
    (ErrInvalidFormat, http.StatusBadRequest),
    (ErrInvalidToken, http.StatusUnauthorized),
    (ErrExpiredToken, http.StatusUnauthorized),
    (ErrInvalidCredentials, http.StatusUnauthorized),
    (ErrInsufficientPermissions, http.StatusForbidden),
    (ErrAccessDenied, http.StatusForbidden),
    (ErrUserNotFound, http.StatusNotFound),
    (ErrResourceNotFound, http.StatusNotFound),
    (ErrUserAlreadyExists, http.StatusConflict),
    (ErrEmailAlreadyTaken, http.StatusConflict),
    (ErrInvalidBusinessRule, http.StatusUnprocessableEntity),
    (ErrInvalidState, http.StatusUnprocessableEntity),
    (ErrDatabaseConnection, http.StatusFailedDependency),
    (ErrExternalService, http.StatusFailedDependency),
    (ErrRepositoryOperation, http.StatusFailedDependency) ]

def NewDefaultHTTPErrorHandler : DefaultHTTPErrorHandler :=
  { errorMapping := getDefaultErrorMapping }

def NewCustomHTTPErrorHandler (mapping : List (ErrorCode × Int)) : DefaultHTTPErrorHandler :=
  { errorMapping := mapping }

namespace DefaultHTTPErrorHandler

def HandleError (_h : DefaultHTTPErrorHandler) (err : LayerError) : ProtocolResponse :=
  { Error := err.Error
    Code := err.Code
    Typ := err.ErrType
    Details := err.Details }

def getFallbackHTTPStatus (_h : DefaultHTTPErrorHandler) (errType : ErrorType) : Int :=
  if errType = ValidationError then http.StatusBadRequest
  else if errType = AuthenticationError then http.StatusUnauthorized
  else if errType = AuthorizationError then http.StatusForbidden
  else if errType = NotFoundError then http.StatusNotFound
  else if errType = ConflictError then http.StatusConflict
  else if errType = BusinessRuleError then http.StatusUnprocessableEntity
  else if errType = InfrastructureError then http.StatusFailedDependency
  else if errType = InternalError then http.StatusInternalServerError
  else http.StatusInternalServerError

def HandleHTTPError (h : DefaultHTTPErrorHandler) (err : LayerError) : HTTPErrorResponse :=
  let response := h.HandleError err
  let httpStatus :=
    match h.errorMapping.lookup err.Code with
    | some status => status
    | none => h.getFallbackHTTPStatus err.ErrType
  { toProtocolResponse := response
    HTTPStatus := httpStatus }

end DefaultHTTPErrorHandler

structure DefaultGRPCErrorHandler where

def NewDefaultGRPCErrorHandler : DefaultGRPCErrorHandler := {}

namespace DefaultGRPCErrorHandler

def HandleError (_h : DefaultGRPCErrorHandler) (err : LayerError) : ProtocolResponse :=
  { Error := err.Error
    Code := err.Code
    Typ := err.ErrType
    Details := err.Details }

def mapToGRPCCode (_h : DefaultGRPCErrorHandler) (errType : ErrorType) : Int :=
  if errType = ValidationError then 3
  else if errType = AuthenticationError then 16
  else if errType = AuthorizationError then 7
  else if errType = NotFoundError then 5
  else if errType = ConflictError then 6
  else if errType = BusinessRuleError then 3
  else if errType = InfrastructureError then 14
  else if errType = InternalError then 13
  else 13

def HandleGRPCError (h : DefaultGRPCErrorHandler) (err : LayerError) : GRPCErrorResponse :=
  let response := h.HandleError err
  let grpcCode := h.mapToGRPCCode err.ErrType
  { toProtocolResponse := response
    GRPCCode := grpcCode
    GRPCMessage := err.Error }

end DefaultGRPCErrorHandler

end protocols

/-! ## Go standard library: unicode, strings, regexp -/

namespace unicode

/-- Go `unicode.IsSpace`: in Latin-1 the characters TAB, LF, VT, FF, CR, SPACE, U+0085
and U+00A0; beyond Latin-1 the White_Space table (U+1680, U+2000..U+200A, U+2028,
U+2029, U+202F, U+205F, U+3000). -/
def IsSpace (r : Char) : Bool :=
  let n := r.toNat
  if n ≤ 0xFF then
    n = 0x09 || n = 0x0A || n = 0x0B || n = 0x0C || n = 0x0D || n = 0x20 || n = 0x85 || n = 0xA0
  else
    n = 0x1680 || (0x2000 ≤ n && n ≤ 0x200A) || n = 0x2028 || n = 0x2029 || n = 0x202F
      || n = 0x205F || n = 0x3000

end unicode

namespace strings

/-- Go `strings.TrimSpace`: the string without its leading and trailing white space,
as `unicode.IsSpace` defines it. -/
def TrimSpace (s : String) : String :=
  String.mk ((s.data.dropWhile unicode.IsSpace).reverse.dropWhile unicode.IsSpace).reverse

end strings

namespace regexp

/-- The regular-expression operators the patterns of the source use
(a fragment of Go `regexp/syntax`). -/
inductive Node where
  /-- matches no string -/
  | noMatch
  /-- matches the empty string -/
  | emptyMatch
  /-- one given character -/
  | literal (c : Char)
  /-- one character of a class, given by its inclusive ranges -/
  | charClass (ranges : List (Char × Char))
  | concat (r s : Node)
  | alternate (r s : Node)
  | star (r : Node)

/-- Membership of a character in a class written as inclusive ranges. -/
def inRanges (ranges : List (Char × Char)) (c : Char) : Bool :=
  ranges.any fun r => decide (r.1 ≤ c) && decide (c ≤ r.2)

namespace Node

/-- The operator `r+`. -/
def plus (r : Node) : Node := .concat r (.star r)

/-- The operator `r{n,}`. -/
def repeatMin : Nat → Node → Node
  | 0, r => .star r
  | n + 1, r => .concat r (repeatMin n r)

/-- The operator `r{n}`. -/
def repeatExact : Nat → Node → Node
  | 0, _ => .emptyMatch
  | n + 1, r => .concat r (repeatExact n r)

/-- Whether the expression matches the empty string. -/
def nullable : Node → Bool
  | .noMatch => false
  | .emptyMatch => true
  | .literal _ => false
  | .charClass _ => false
  | .concat r s => r.nullable && s.nullable
  | .alternate r s => r.nullable || s.nullable
  | .star _ => true

/-- The expression matching what is left of a match after reading `c`. -/
def deriv : Node → Char → Node
  | .noMatch, _ => .noMatch
  | .emptyMatch, _ => .noMatch
  | .literal d, c => if d = c then .emptyMatch else .noMatch
  | .charClass ranges, c => if inRanges ranges c then .emptyMatch else .noMatch
  | .concat r s, c =>
    if r.nullable then .alternate (.concat (r.deriv c) s) (s.deriv c)
    else .concat (r.deriv c) s
  | .alternate r s, c => .alternate (r.deriv c) (s.deriv c)
  | .star r, c => .concat (r.deriv c) (.star r)

/-- Whether the expression matches the whole sequence of characters. -/
def matchRunes : Node → List Char → Bool
  | r, [] => r.nullable
  | r, c :: cs => matchRunes (r.deriv c) cs

/-- The language of an expression: the sequences of characters it matches as a whole. -/
inductive Matches : Node → List Char → Prop where
  | emptyMatch : Matches .emptyMatch []
  | literal (c : Char) : Matches (.literal c) [c]
  | charClass (ranges : List (Char × Char)) (c : Char) (h : inRanges ranges c = true) :
    Matches (.charClass ranges) [c]
  | concat (r s : Node) (u v : List Char) (hr : Matches r u) (hs : Matches s v) :
    Matches (.concat r s) (u ++ v)
  | alternateLeft (r s : Node) (u : List Char) (hr : Matches r u) : Matches (.alternate r s) u
  | alternateRight (r s : Node) (u : List Char) (hs : Matches s u) : Matches (.alternate r s) u
  | starEmpty (r : Node) : Matches (.star r) []
  | starStep (r : Node) (u v : List Char) (hr : Matches r u) (hs : Matches (.star r) v) :
    Matches (.star r) (u ++ v)

end Node

/-- Any character (the operator `.` with the flag `s`). -/
def anyChar : Node := .charClass [(Char.ofNat 0, Char.ofNat 0x10FFFF)]

/-- A compiled pattern: its body, and whether it opens with `^` and closes with `$`. -/
structure Regexp where
  beginText : Bool
  body : Node
  endText : Bool

/-- Go `(*Regexp).MatchString`: whether the string contains a match of the pattern; an
end that is not anchored may be followed (or preceded) by any text. -/
def Regexp.MatchString (re : Regexp) (s : String) : Bool :=
  let r1 := if re.beginText then re.body else .concat (.star anyChar) re.body
  let r2 := if re.endText then r1 else .concat r1 (.star anyChar)
  r2.matchRunes s.data

end regexp

/-! ## Package validation -/

namespace validation

open errors

/-- The type `ValidationOption`: a rule returns nil (`ok none`), an error (`ok (some e)`),
or panics (`error p`). -/
abbrev ValidationOption := String → Value → Except String (Option LayerError)

structure ValidationField where
  Field : String
  Value : Value
  Options : List ValidationOption

def Field (field : String) (value : Value) (opts : List ValidationOption) : ValidationField :=
  { Field := field, Value := value, Options := opts }

/-- The inner loop of `Validate`: the options of one field, in order. -/
def validateOptions (field : String) (value : Value) :
    List ValidationOption → Except String (Option LayerError)
  | [] => .ok none
  | opt :: rest =>
    match opt field value with
    | .error p => .error p
    | .ok (some err) => .ok (some err)
    | .ok none => validateOptions field value rest

def Validate : List ValidationField → Except String (Option LayerError)
  | [] => .ok none
  | f :: rest =>
    match validateOptions f.Field f.Value f.Options with
    | .error p => .error p
    | .ok (some err) => .ok (some err)
    | .ok none => Validate rest

/-- The message of a rule: the first custom message when one is given, else the default. -/
def messageOr (default : String) (msg : List String) : String :=
  match msg with
  | [] => default
  | m :: _ => m

def Required (msg : List String) : ValidationOption := fun field value =>
  let message := messageOr ("Field '" ++ field ++ "' is required") msg
  match value with
  | .nil =>
    .ok (some (NewValidationError ErrMissingRequired message [some [("field", .str field)]]))
  | _ =>
    match value.Kind with
    | .String =>
      if strings.TrimSpace value.String = "" then
        .ok (some (NewValidationError ErrMissingRequired message [some [("field", .str field)]]))
      else .ok none
    | .Slice | .Array | .Map =>
      if value.Len = 0 then
        .ok (some (NewValidationError ErrMissingRequired message [some [("field", .str field)]]))
      else .ok none
    | _ => .ok none

/-- The pattern of `Email`,
`^[a-zA-Z0-9._%%+-]+@[a-zA-Z0-9.-]+\.[a-zA-Z]{2,}$`, as `regexp.MustCompile` reads it
(the pattern is a constant and well formed, so compiling it cannot panic). -/
def emailRegex : regexp.Regexp :=
  { beginText := true
    body :=
      .concat
        (regexp.Node.plus (.charClass
          [('a', 'z'), ('A', 'Z'), ('0', '9'), ('.', '.'), ('_', '_'), ('%', '%'), ('%', '%'),
            ('+', '+'), ('-', '-')]))
        (.concat (.literal '@')
          (.concat
            (regexp.Node.plus (.charClass
              [('a', 'z'), ('A', 'Z'), ('0', '9'), ('.', '.'), ('-', '-')]))
            (.concat (.literal '.')
              (regexp.Node.repeatMin 2 (.charClass [('a', 'z'), ('A', 'Z')])))))
    endText := true }

def Email (msg : List String) : ValidationOption := fun field value =>
  let message := messageOr ("Field '" ++ field ++ "' must be a valid email") msg
  match value with
  | .str email =>
    if email = "" then
      .ok (some (NewValidationError ErrInvalidEmail message [some [("field", .str field)]]))
    else if !emailRegex.MatchString email then
      .ok (some (NewValidationError ErrInvalidEmail message
        [some [("field", .str field), ("value", .str email)]]))
    else .ok none
  | _ => .ok (some (NewValidationError ErrInvalidEmail message [some [("field", .str field)]]))

def MinLength (min : Int) (msg : List String) : ValidationOption := fun field value =>
  let message :=
    messageOr ("Field '" ++ field ++ "' must have at least " ++ toString min ++ " characters") msg
  match value.Kind with
  | .String =>
    if (len value.String : Int) < min then
      .ok (some (NewValidationError ErrInvalidFormat message
        [some [("field", .str field), ("min", .int min)]]))
    else .ok none
  | .Slice | .Array =>
    if (value.Len : Int) < min then
      .ok (some (NewValidationError ErrInvalidFormat message
        [some [("field", .str field), ("min", .int min)]]))
    else .ok none
  | _ => .ok none

def MaxLength (max : Int) (msg : List String) : ValidationOption := fun field value =>
  let message :=
    messageOr ("Field '" ++ field ++ "' must have at most " ++ toString max ++ " characters") msg
  match value.Kind with
  | .String =>
    if (len value.String : Int) > max then
      .ok (some (NewValidationError ErrInvalidFormat message
        [some [("field", .str field), ("max", .int max)]]))
    else .ok none
  | .Slice | .Array =>
    if (value.Len : Int) > max then
      .ok (some (NewValidationError ErrInvalidFormat message
        [some [("field", .str field), ("max", .int max)]]))
    else .ok none
  | _ => .ok none

/-- The rule `Pattern`. Its first argument stands for `regexp.MustCompile`, Go's pattern
compiler: `error p` is the panic on a malformed pattern. -/
def Pattern (mustCompile : String → Except String regexp.Regexp) (pattern : String)
    (msg : List String) : ValidationOption := fun field value =>
  let message := messageOr ("Field '" ++ field ++ "' must match pattern") msg
  match value with
  | .str str =>
    match mustCompile pattern with
    | .error p => .error p
    | .ok regex =>
      if !regex.MatchString str then
        .ok (some (NewValidationError ErrInvalidFormat message
          [some [("field", .str field), ("pattern", .str pattern)]]))
      else .ok none
  | _ => .ok (some (NewValidationError ErrInvalidFormat message [some [("field", .str field)]]))

def Custom (validator : Value → Bool) (msg : String) : ValidationOption := fun field value =>
  if !validator value then
    .ok (some (NewValidationError ErrInvalidFormat msg [some [("field", .str field)]]))
  else .ok none

/-- The result of every rule of every field, in the order `Validate` scans them. -/
def ruleResults (fields : List ValidationField) : List (Except String (Option LayerError)) :=
  fields.flatMap fun f => f.Options.map fun opt => opt f.Field f.Value

/-- The first result of a list that is not a pass (nil): the outcome of a scan that stops
at the first error or panic; a pass when there is none. -/
def firstOutcome :
    List (Except String (Option LayerError)) → Except String (Option LayerError)
  | [] => .ok none
  | .ok none :: rest => firstOutcome rest
  | .ok (some err) :: _ => .ok (some err)
  | .error p :: _ => .error p

/-- The result of a rule is an error carrying the given code. -/
def failsWith (r : Except String (Option LayerError)) (code : ErrorCode) : Prop :=
  ∃ e : LayerError, r = .ok (some e) ∧ e.Code = code

/-- The values the specification counts as missing: nil, a string that is empty once its
surrounding white space is trimmed, a slice, array or map of length zero. -/
def isMissing (value : Value) : Prop :=
  value = .nil
    ∨ (value.Kind = .String ∧ strings.TrimSpace value.String = "")
    ∨ ((value.Kind = .Slice ∨ value.Kind = .Array ∨ value.Kind = .Map) ∧ value.Len = 0)

/-- The characters `[A-Za-z0-9._%+-]` of the local part of an address, as the
specification lists them. -/
def isLocalChar (c : Char) : Prop :=
  ('A' ≤ c ∧ c ≤ 'Z') ∨ ('a' ≤ c ∧ c ≤ 'z') ∨ ('0' ≤ c ∧ c ≤ '9')
    ∨ c = '.' ∨ c = '_' ∨ c = '%' ∨ c = '+' ∨ c = '-'

/-- The characters `[A-Za-z0-9.-]` of the domain of an address, as the specification
lists them. -/
def isDomainChar (c : Char) : Prop :=
  ('A' ≤ c ∧ c ≤ 'Z') ∨ ('a' ≤ c ∧ c ≤ 'z') ∨ ('0' ≤ c ∧ c ≤ '9') ∨ c = '.' ∨ c = '-'

/-- An ASCII letter. -/
def isAsciiLetter (c : Char) : Prop :=
  ('A' ≤ c ∧ c ≤ 'Z') ∨ ('a' ≤ c ∧ c ≤ 'z')

/-- The specification of a well-formed address: the whole string reads
`local@domain.tld`, with `local` one or more characters of `[A-Za-z0-9._%+-]`,
`domain` one or more characters of `[A-Za-z0-9.-]` and `tld` two or more ASCII
letters. -/
def isEmailForm (s : String) : Prop :=
  ∃ loc dom tld : List Char,
    s.data = loc ++ '@' :: (dom ++ '.' :: tld)
      ∧ loc ≠ [] ∧ (∀ c ∈ loc, isLocalChar c)
      ∧ dom ≠ [] ∧ (∀ c ∈ dom, isDomainChar c)
      ∧ 2 ≤ tld.length ∧ (∀ c ∈ tld, isAsciiLetter c)

end validation

/-! ## Notions the statements use -/

namespace errors

/-- Reading the key `key` of a details map, `d[key]`; the nil map has no key. -/
def detailsGet (d : Details) (key : String) : Option Value :=
  match d with
  | none => none
  | some entries => entries.lookup key

/-- Go `len(d)` on a details map: its number of entries, zero for the nil map. -/
def detailsLen (d : Details) : Nat :=
  match d with
  | none => 0
  | some entries => entries.length

end errors

namespace validation

open errors

/-- The result of a rule with the message of its error, when it is one, replaced. -/
def setMessage (message : String) :
    Except String (Option LayerError) → Except String (Option LayerError)
  | .ok (some e) => .ok (some { e with message := message })
  | .ok none => .ok none
  | .error p => .error p

/-- The pattern of `TestValidate_Pattern`, `^\d{3}-\d{3}-\d{4}$`, as
`regexp.MustCompile` reads it (`\d` is the class `[0-9]`). -/
def phoneRegex : regexp.Regexp :=
  { beginText := true
    body :=
      .concat (regexp.Node.repeatExact 3 (.charClass [('0', '9')]))
        (.concat (.literal '-')
          (.concat (regexp.Node.repeatExact 3 (.charClass [('0', '9')]))
            (.concat (.literal '-')
              (regexp.Node.repeatExact 4 (.charClass [('0', '9')])))))
    endText := true }

/-- Go `regexp.MustCompile` on the patterns of the examples: the pattern of
`TestValidate_Pattern`, well formed, and the pattern `(`, an unclosed group, on which it
panics. The table has no other entry; a pattern outside it is answered with a panic that
says so. -/
def mustCompileExamples (pattern : String) : Except String regexp.Regexp :=
  if pattern = "^\\d{3}-\\d{3}-\\d{4}$" then .ok phoneRegex
  else if pattern = "(" then
    .error "regexp: Compile: error parsing regexp: missing closing )"
  else .error "pattern outside the examples"

/-- The predicate `isAdult` of `TestValidate_Custom`. -/
def isAdult (value : Value) : Bool :=
  match value with
  | .int age => decide (age ≥ 18)
  | _ => false

/-- The built-in rules: what `Required`, `Email`, `MinLength`, `MaxLength`, `Pattern` and
`Custom` build. -/
inductive IsBuiltin : ValidationOption → Prop where
  | required (msg : List String) : IsBuiltin (Required msg)
  | email (msg : List String) : IsBuiltin (Email msg)
  | minLength (min : Int) (msg : List String) : IsBuiltin (MinLength min msg)
  | maxLength (max : Int) (msg : List String) : IsBuiltin (MaxLength max msg)
  | pattern (mustCompile : String → Except String regexp.Regexp) (pattern : String)
      (msg : List String) : IsBuiltin (Pattern mustCompile pattern msg)
  | custom (validator : Value → Bool) (msg : String) : IsBuiltin (Custom validator msg)

end validation

namespace errors

/-- The predefined codes, each with the error type of the group `constants.go` declares
it in (Validation, Authentication, Authorization, Not Found, Conflict, Business Rule,
Infrastructure Errors). -/
def predefinedCodes : List (ErrorCode × ErrorType) :=
  [ (ErrInvalidEmail, ValidationError),
    (ErrInvalidPassword, ValidationError),
    (ErrMissingRequired, ValidationError),
    (ErrInvalidFormat, ValidationError),
    (ErrInvalidToken, AuthenticationError),
    (ErrExpiredToken, AuthenticationError),
    (ErrInvalidCredentials, AuthenticationError),
    (ErrInsufficientPermissions, AuthorizationError),
    (ErrAccessDenied, AuthorizationError),
    (ErrUserNotFound, NotFoundError),
    (ErrResourceNotFound, NotFoundError),
    (ErrUserAlreadyExists, ConflictError),
    (ErrEmailAlreadyTaken, ConflictError),
    (ErrInvalidBusinessRule, BusinessRuleError),
    (ErrInvalidState, BusinessRuleError),
    (ErrDatabaseConnection, InfrastructureError),
    (ErrExternalService, InfrastructureError),
    (ErrRepositoryOperation, InfrastructureError) ]

end errors

/-! ## Theorems: protocol translation and error construction -/

open errors protocols validation

/-- A key absent from an association list is not found by `List.lookup`. -/
theorem lookup_eq_none_of_not_mem_keys (m : List (String × Int)) (k : String)
    (h : k ∉ m.map Prod.fst) : m.lookup k = none := by
  induction m with
  | nil => rfl
  | cons p rest ih =>
    obtain ⟨k1, v1⟩ := p
    simp only [List.map_cons, List.mem_cons, not_or] at h
    have hne : (k == k1) = false := by simpa using h.1
    simp only [List.lookup, hne]
    exact ih h.2

/-- In an association list without repeated keys, `List.lookup` finds every entry. -/
theorem lookup_eq_some_of_mem (m : List (String × Int)) (k : String) (v : Int)
    (hnd : (m.map Prod.fst).Nodup) (h : (k, v) ∈ m) : m.lookup k = some v := by
  induction m with
  | nil => cases h
  | cons p rest ih =>
    obtain ⟨k1, v1⟩ := p
    simp only [List.map_cons, List.nodup_cons] at hnd
    rcases List.mem_cons.mp h with heq | hmem
    · cases heq
      simp [List.lookup]
    · have hne : (k == k1) = false := by
        have : k ≠ k1 := by
          rintro rfl
          exact hnd.1 (List.mem_map_of_mem Prod.fst hmem)
        simpa using this
      simp only [List.lookup, hne]
      exact ih hnd.2 hmem

/-- A found key makes `HandleHTTPError` return the value found. -/
theorem HandleHTTPError_of_lookup_some (h : DefaultHTTPErrorHandler) (e : LayerError)
    (status : Int) (hl : h.errorMapping.lookup e.Code = some status) :
    (h.HandleHTTPError e).HTTPStatus = status := by
  simp [DefaultHTTPErrorHandler.HandleHTTPError, hl]

/-- A missing key makes `HandleHTTPError` return the fallback of the type. -/
theorem HandleHTTPError_of_lookup_none (h : DefaultHTTPErrorHandler) (e : LayerError)
    (hl : h.errorMapping.lookup e.Code = none) :
    (h.HandleHTTPError e).HTTPStatus = h.getFallbackHTTPStatus e.ErrType := by
  simp [DefaultHTTPErrorHandler.HandleHTTPError, hl]

/-- C2: the default HTTP handler returns, for an error whose code is one of the 18 codes
of the default table, the status the table maps the code to (whatever the type and the
layer), and for any other code the fallback status of the type of the error. The table is
spelled out: 18 entries, no code twice. -/
theorem default_handler_status (e : LayerError) :
    getDefaultErrorMapping =
        [("INVALID_EMAIL", 400), ("INVALID_PASSWORD", 400), ("MISSING_REQUIRED", 400),
          ("INVALID_FORMAT", 400), ("INVALID_TOKEN", 401), ("EXPIRED_TOKEN", 401),
          ("INVALID_CREDENTIALS", 401), ("INSUFFICIENT_PERMISSIONS", 403),
          ("ACCESS_DENIED", 403), ("USER_NOT_FOUND", 404), ("RESOURCE_NOT_FOUND", 404),
          ("USER_ALREADY_EXISTS", 409), ("EMAIL_ALREADY_TAKEN", 409),
          ("INVALID_BUSINESS_RULE", 422), ("INVALID_STATE", 422),
          ("DATABASE_CONNECTION", 424), ("EXTERNAL_SERVICE", 424),
          ("REPOSITORY_OPERATION", 424)]
      ∧ getDefaultErrorMapping.length = 18
      ∧ (getDefaultErrorMapping.map Prod.fst).Nodup
      ∧ (∀ status : Int, (e.Code, status) ∈ getDefaultErrorMapping →
          (NewDefaultHTTPErrorHandler.HandleHTTPError e).HTTPStatus = status)
      ∧ (e.Code ∉ getDefaultErrorMapping.map Prod.fst →
          (NewDefaultHTTPErrorHandler.HandleHTTPError e).HTTPStatus =
            NewDefaultHTTPErrorHandler.getFallbackHTTPStatus e.ErrType) := by
  have hnd : (getDefaultErrorMapping.map Prod.fst).Nodup := by decide
  refine ⟨rfl, rfl, hnd, ?_, ?_⟩
  · intro status hmem
    exact HandleHTTPError_of_lookup_some _ e status
      (lookup_eq_some_of_mem _ _ _ hnd hmem)
  · intro hnot
    exact HandleHTTPError_of_lookup_none _ e (lookup_eq_none_of_not_mem_keys _ _ hnot)

/-- C3: a handler built on a custom table `m` returns `m[code]` when the code of the
error is a key of `m`, and otherwise the fallback status of the type of the error; the
default table plays no part. With `m = {USER_NOT_FOUND: 410}` a USER_NOT_FOUND error
gets 410, and an INVALID_EMAIL-coded error of type not_found gets 404, not 400. -/
theorem custom_handler_status (m : List (ErrorCode × Int)) (e : LayerError) :
    (∀ status : Int, m.lookup e.Code = some status →
        ((NewCustomHTTPErrorHandler m).HandleHTTPError e).HTTPStatus = status)
      ∧ (e.Code ∉ m.map Prod.fst →
        ((NewCustomHTTPErrorHandler m).HandleHTTPError e).HTTPStatus =
          (NewCustomHTTPErrorHandler m).getFallbackHTTPStatus e.ErrType)
      ∧ (∀ msg : String,
        ((NewCustomHTTPErrorHandler [(ErrUserNotFound, 410)]).HandleHTTPError
          (NewNotFoundError ErrUserNotFound msg [])).HTTPStatus = 410)
      ∧ (∀ msg : String,
        ((NewCustomHTTPErrorHandler [(ErrUserNotFound, 410)]).HandleHTTPError
          (NewNotFoundError ErrInvalidEmail msg [])).HTTPStatus = 404)
      ∧ (∀ msg : String,
        (NewDefaultHTTPErrorHandler.HandleHTTPError
          (NewNotFoundError ErrInvalidEmail msg [])).HTTPStatus = 400) := by
  refine ⟨?_, ?_, ?_, ?_, ?_⟩
  · intro status hl
    exact HandleHTTPError_of_lookup_some _ e status hl
  · intro hnot
    exact HandleHTTPError_of_lookup_none _ e (lookup_eq_none_of_not_mem_keys _ _ hnot)
  · intro msg
    rfl
  · intro msg
    rfl
  · intro msg
    rfl

/-- C4: the HTTP fallback maps validation to 400, authentication to 401, authorization to
403, not_found to 404, conflict to 409, business_rule to 422, infrastructure to 424,
internal to 500, and every other type string to 500. -/
theorem fallback_status_table (h : DefaultHTTPErrorHandler) :
    h.getFallbackHTTPStatus "validation" = 400
      ∧ h.getFallbackHTTPStatus "authentication" = 401
      ∧ h.getFallbackHTTPStatus "authorization" = 403
      ∧ h.getFallbackHTTPStatus "not_found" = 404
      ∧ h.getFallbackHTTPStatus "conflict" = 409
      ∧ h.getFallbackHTTPStatus "business_rule" = 422
      ∧ h.getFallbackHTTPStatus "infrastructure" = 424
      ∧ h.getFallbackHTTPStatus "internal" = 500
      ∧ (∀ t : ErrorType,
          t ∉ ["validation", "authentication", "authorization", "not_found", "conflict",
            "business_rule", "infrastructure", "internal"] →
          h.getFallbackHTTPStatus t = 500) := by
  refine ⟨rfl, rfl, rfl, rfl, rfl, rfl, rfl, rfl, ?_⟩
  intro t ht
  simp only [List.mem_cons, List.mem_singleton, List.not_mem_nil, or_false, not_or] at ht
  obtain ⟨h1, h2, h3, h4, h5, h6, h7, h8⟩ := ht
  simp [DefaultHTTPErrorHandler.getFallbackHTTPStatus, ValidationError, AuthenticationError,
    AuthorizationError, NotFoundError, ConflictError, BusinessRuleError, InfrastructureError,
    InternalError, h1, h2, h3, h4, h5, h6, h7, http.StatusInternalServerError]

/-- C5: the gRPC handler returns code 3 for the types validation and business_rule, 16 for
authentication, 7 for authorization, 5 for not_found, 6 for conflict, 14 for
infrastructure, 13 for internal and for every other type; an error built by
`NewInfrastructureError(DATABASE_CONNECTION, msg)` gets 14. -/
theorem grpc_code_table (h : DefaultGRPCErrorHandler) (e : LayerError) :
    (e.ErrType = "validation" → (h.HandleGRPCError e).GRPCCode = 3)
      ∧ (e.ErrType = "business_rule" → (h.HandleGRPCError e).GRPCCode = 3)
      ∧ (e.ErrType = "authentication" → (h.HandleGRPCError e).GRPCCode = 16)
      ∧ (e.ErrType = "authorization" → (h.HandleGRPCError e).GRPCCode = 7)
      ∧ (e.ErrType = "not_found" → (h.HandleGRPCError e).GRPCCode = 5)
      ∧ (e.ErrType = "conflict" → (h.HandleGRPCError e).GRPCCode = 6)
      ∧ (e.ErrType = "infrastructure" → (h.HandleGRPCError e).GRPCCode = 14)
      ∧ (e.ErrType = "internal" → (h.HandleGRPCError e).GRPCCode = 13)
      ∧ (e.ErrType ∉ ["validation", "authentication", "authorization", "not_found",
            "conflict", "business_rule", "infrastructure", "internal"] →
          (h.HandleGRPCError e).GRPCCode = 13)
      ∧ (∀ (msg : String) (details : List Details),
          (h.HandleGRPCError (NewInfrastructureError ErrDatabaseConnection msg details)).GRPCCode
            = 14) := by
  have key : (h.HandleGRPCError e).GRPCCode = h.mapToGRPCCode e.ErrType := rfl
  rw [key]
  refine ⟨?_, ?_, ?_, ?_, ?_, ?_, ?_, ?_, ?_, ?_⟩
  · intro ht; rw [ht]; rfl
  · intro ht; rw [ht]; rfl
  · intro ht; rw [ht]; rfl
  · intro ht; rw [ht]; rfl
  · intro ht; rw [ht]; rfl
  · intro ht; rw [ht]; rfl
  · intro ht; rw [ht]; rfl
  · intro ht; rw [ht]; rfl
  · intro ht
    simp only [List.mem_cons, List.mem_singleton, List.not_mem_nil, or_false, not_or] at ht
    obtain ⟨h1, h2, h3, h4, h5, h6, h7, h8⟩ := ht
    simp [DefaultGRPCErrorHandler.mapToGRPCCode, ValidationError, AuthenticationError,
      AuthorizationError, NotFoundError, ConflictError, BusinessRuleError, InfrastructureError,
      InternalError, h1, h2, h3, h4, h5, h6, h7]
  · intro msg details
    rfl

/-- C6: the generic translation `HandleError` of the HTTP handler (whatever its table,
default or custom) and of the gRPC handler returns the response whose Error, Code, Type
and Details are those of the error, unchanged; it does not depend on the table. -/
theorem HandleError_copies (m : List (ErrorCode × Int)) (g : DefaultGRPCErrorHandler)
    (e : LayerError) :
    (NewCustomHTTPErrorHandler m).HandleError e =
        { Error := e.Error, Code := e.Code, Typ := e.ErrType, Details := e.Details }
      ∧ NewDefaultHTTPErrorHandler.HandleError e =
        { Error := e.Error, Code := e.Code, Typ := e.ErrType, Details := e.Details }
      ∧ g.HandleError e =
        { Error := e.Error, Code := e.Code, Typ := e.ErrType, Details := e.Details }
      ∧ (∀ h1 h2 : DefaultHTTPErrorHandler, h1.HandleError e = h2.HandleError e) :=
  ⟨rfl, rfl, rfl, fun _ _ => rfl⟩

/-- C7: for every code (predefined or not, the empty string included), message and
details, each named constructor yields an error with that code and that message and a
fixed layer and type: application with validation, authentication, authorization;
domain with not_found, conflict, business_rule; infrastructure with infrastructure. -/
theorem constructors_pairing (code : ErrorCode) (message : String) (details : List Details) :
    ((NewValidationError code message details).Code = code
        ∧ (NewValidationError code message details).Error = message
        ∧ (NewValidationError code message details).Layer = "application"
        ∧ (NewValidationError code message details).ErrType = "validation")
      ∧ ((NewAuthenticationError code message details).Code = code
        ∧ (NewAuthenticationError code message details).Error = message
        ∧ (NewAuthenticationError code message details).Layer = "application"
        ∧ (NewAuthenticationError code message details).ErrType = "authentication")
      ∧ ((NewAuthorizationError code message details).Code = code
        ∧ (NewAuthorizationError code message details).Error = message
        ∧ (NewAuthorizationError code message details).Layer = "application"
        ∧ (NewAuthorizationError code message details).ErrType = "authorization")
      ∧ ((NewNotFoundError code message details).Code = code
        ∧ (NewNotFoundError code message details).Error = message
        ∧ (NewNotFoundError code message details).Layer = "domain"
        ∧ (NewNotFoundError code message details).ErrType = "not_found")
      ∧ ((NewConflictError code message details).Code = code
        ∧ (NewConflictError code message details).Error = message
        ∧ (NewConflictError code message details).Layer = "domain"
        ∧ (NewConflictError code message details).ErrType = "conflict")
      ∧ ((NewBusinessRuleError code message details).Code = code
        ∧ (NewBusinessRuleError code message details).Error = message
        ∧ (NewBusinessRuleError code message details).Layer = "domain"
        ∧ (NewBusinessRuleError code message details).ErrType = "business_rule")
      ∧ ((NewInfrastructureError code message details).Code = code
        ∧ (NewInfrastructureError code message details).Error = message
        ∧ (NewInfrastructureError code message details).Layer = "infrastructure"
        ∧ (NewInfrastructureError code message details).ErrType = "infrastructure") :=
  ⟨⟨rfl, rfl, rfl, rfl⟩, ⟨rfl, rfl, rfl, rfl⟩, ⟨rfl, rfl, rfl, rfl⟩, ⟨rfl, rfl, rfl, rfl⟩,
    ⟨rfl, rfl, rfl, rfl⟩, ⟨rfl, rfl, rfl, rfl⟩, ⟨rfl, rfl, rfl, rfl⟩⟩

/-! ## Theorems: the scan of `Validate` -/

/-- The scan of a list that starts with passes continues after them. -/
theorem firstOutcome_append_of_pass (pre rest : List (Except String (Option LayerError)))
    (hpre : ∀ r ∈ pre, r = .ok none) : firstOutcome (pre ++ rest) = firstOutcome rest := by
  induction pre with
  | nil => rfl
  | cons r pre ih =>
    have hr : r = .ok none := hpre r (List.mem_cons_self _ _)
    subst hr
    simp only [List.cons_append, firstOutcome]
    exact ih fun x hx => hpre x (List.mem_cons_of_mem _ hx)

/-- The scan of a concatenation: the outcome of the first part unless it is a pass. -/
theorem firstOutcome_append (a b : List (Except String (Option LayerError))) :
    firstOutcome (a ++ b) =
      match firstOutcome a with
      | .ok none => firstOutcome b
      | .ok (some err) => .ok (some err)
      | .error p => .error p := by
  induction a with
  | nil =>
    simp only [List.nil_append, firstOutcome]
  | cons r a ih =>
    match r with
    | .ok none => simpa only [List.cons_append, firstOutcome] using ih
    | .ok (some err) => simp only [List.cons_append, firstOutcome]
    | .error p => simp only [List.cons_append, firstOutcome]

/-- The scan passes exactly when every result is a pass. -/
theorem firstOutcome_eq_pass_iff (l : List (Except String (Option LayerError))) :
    firstOutcome l = .ok none ↔ ∀ r ∈ l, r = .ok none := by
  induction l with
  | nil => simp [firstOutcome]
  | cons r l ih =>
    match r with
    | .ok none => simp [firstOutcome, ih]
    | .ok (some err) => simp [firstOutcome]
    | .error p => simp [firstOutcome]

/-- The inner loop is the scan of the results of the options of the field. -/
theorem validateOptions_eq_firstOutcome (field : String) (value : Value)
    (opts : List ValidationOption) :
    validateOptions field value opts = firstOutcome (opts.map fun opt => opt field value) := by
  induction opts with
  | nil => rfl
  | cons opt rest ih =>
    simp only [validateOptions, List.map_cons]
    cases hres : opt field value with
    | error p => simp only [firstOutcome]
    | ok o =>
      cases o with
      | none => simpa only [firstOutcome] using ih
      | some err => simp only [firstOutcome]

/-- The function `Validate` is the scan of the results of all rules, field after field. -/
theorem Validate_eq_firstOutcome (fields : List ValidationField) :
    Validate fields = firstOutcome (ruleResults fields) := by
  induction fields with
  | nil => rfl
  | cons f rest ih =>
    have hsplit : ruleResults (f :: rest) =
        (f.Options.map fun opt => opt f.Field f.Value) ++ ruleResults rest := by
      simp [ruleResults, List.flatMap_cons]
    rw [hsplit, firstOutcome_append, ← validateOptions_eq_firstOutcome, ← ih]
    simp only [Validate]
    cases hres : validateOptions f.Field f.Value f.Options with
    | error p => rfl
    | ok o =>
      cases o with
      | none => rfl
      | some err => rfl

/-- C1: `Validate` returns the error of the first rule that fails, fields scanned left to
right and rules left to right within a field: when every rule before a failing rule
passes, the error of that rule is the result. It returns nil exactly when every rule of
every field passes, so for no field at all and for fields without rules. (A rule that
panics before any rule fails makes `Validate` panic likewise.) -/
theorem Validate_first_failure (fields : List ValidationField) :
    (∀ (pre post : List (Except String (Option LayerError))) (err : LayerError),
        ruleResults fields = pre ++ .ok (some err) :: post → (∀ r ∈ pre, r = .ok none) →
        Validate fields = .ok (some err))
      ∧ (Validate fields = .ok none ↔ ∀ r ∈ ruleResults fields, r = .ok none)
      ∧ Validate [] = .ok none
      ∧ ((∀ f ∈ fields, f.Options = []) → Validate fields = .ok none)
      ∧ (∀ (pre post : List (Except String (Option LayerError))) (p : String),
        ruleResults fields = pre ++ .error p :: post → (∀ r ∈ pre, r = .ok none) →
        Validate fields = .error p) := by
  refine ⟨?_, ?_, rfl, ?_, ?_⟩
  · intro pre post err hsplit hpre
    rw [Validate_eq_firstOutcome, hsplit, firstOutcome_append_of_pass pre _ hpre]
    rfl
  · rw [Validate_eq_firstOutcome]
    exact firstOutcome_eq_pass_iff _
  · intro hno
    rw [Validate_eq_firstOutcome, firstOutcome_eq_pass_iff]
    intro r hr
    simp only [ruleResults, List.mem_flatMap, List.mem_map] at hr
    obtain ⟨f, hf, opt, hopt, _⟩ := hr
    rw [hno f hf] at hopt
    cases hopt
  · intro pre post p hsplit hpre
    rw [Validate_eq_firstOutcome, hsplit, firstOutcome_append_of_pass pre _ hpre]
    rfl

/-- C1 at the fields of `TestValidate_MultipleFields`: `Required` passes on "invalid",
`Email` fails, and the error of `Email` is what `Validate` returns; the second field is
never reached. -/
theorem Validate_first_failure_witness :
    Validate
        [Field "email" (.str "invalid") [Required [], Email []],
          Field "password" (.str "123") [Required [], MinLength 8 []]]
      = .ok (some (NewValidationError ErrInvalidEmail "Field 'email' must be a valid email"
          [some [("field", .str "email"), ("value", .str "invalid")]])) :=
  (Validate_first_failure
      [Field "email" (.str "invalid") [Required [], Email []],
        Field "password" (.str "123") [Required [], MinLength 8 []]]).1
    [.ok none]
    [.ok none, .ok (some (NewValidationError ErrInvalidFormat
        "Field 'password' must have at least 8 characters"
        [some [("field", .str "password"), ("min", .int 8)]]))]
    _ rfl (by simp)

/-! ## Theorems: the rules `Required`, `MinLength`, `MaxLength` -/

/-- A rule result that is an error under a condition and a pass otherwise fails with the
code of that error exactly under the condition. -/
theorem failsWith_ite_iff (c : Prop) [Decidable c] (e0 : LayerError) (code : ErrorCode)
    (hcode : e0.Code = code) :
    failsWith (if c then .ok (some e0) else .ok none) code ↔ c := by
  by_cases hc : c
  · simp only [hc, if_true, iff_true]
    exact ⟨e0, rfl, hcode⟩
  · simp only [hc, if_false, iff_false]
    rintro ⟨e, he, _⟩
    cases he

/-- A pass is not a failure. -/
theorem not_failsWith_pass (code : ErrorCode) : ¬ failsWith (.ok none) code := by
  rintro ⟨e, he, _⟩
  cases he

/-- Trimming leaves nothing exactly when the string holds white space only. -/
theorem TrimSpace_eq_empty_iff (s : String) :
    strings.TrimSpace s = "" ↔ ∀ c ∈ s.data, unicode.IsSpace c = true := by
  have hmk : ∀ l : List Char, String.mk l = "" ↔ l = [] := by
    intro l
    constructor
    · intro h
      exact congrArg String.data h
    · intro h
      rw [h]
  unfold strings.TrimSpace
  rw [hmk, List.reverse_eq_nil_iff, List.dropWhile_eq_nil_iff]
  constructor
  · intro h
    by_cases hnil : s.data.dropWhile unicode.IsSpace = []
    · exact List.dropWhile_eq_nil_iff.mp hnil
    · exfalso
      have hhead := List.head_dropWhile_not unicode.IsSpace s.data hnil
      have hmem : (s.data.dropWhile unicode.IsSpace).head hnil
          ∈ (s.data.dropWhile unicode.IsSpace).reverse :=
        List.mem_reverse.mpr (List.head_mem hnil)
      rw [h _ hmem] at hhead
      cases hhead
  · intro h x hx
    exact h x ((List.dropWhile_sublist _).subset (List.mem_reverse.mp hx))

/-- C8: `Required` returns an error with code MISSING_REQUIRED exactly when the value is
nil, or a string that is empty once trimmed of its surrounding white space (so every
empty or white-space-only string fails), or a slice, array or map of length zero; every
other value passes, the integer 0, the float 0.0 and the boolean false among them. Nil is
the nil interface (`value == nil`); a nil pointer held in the interface is another value
and passes. -/
theorem Required_spec (msg : List String) (field : String) (value : Value) :
    (failsWith (Required msg field value) "MISSING_REQUIRED" ↔ isMissing value)
      ∧ (¬ isMissing value → Required msg field value = .ok none)
      ∧ (∀ s : String, (∀ c ∈ s.data, unicode.IsSpace c = true) →
          failsWith (Required msg field (.str s)) "MISSING_REQUIRED")
      ∧ failsWith (Required msg field (.str "")) "MISSING_REQUIRED"
      ∧ Required msg field (.int 0) = .ok none
      ∧ Required msg field (.float64 0) = .ok none
      ∧ Required msg field (.bool false) = .ok none
      ∧ Required msg field (.pointer none) = .ok none := by
  have hstr : ∀ s : String, failsWith (Required msg field (.str s)) "MISSING_REQUIRED"
      ↔ strings.TrimSpace s = "" := by
    intro s
    exact failsWith_ite_iff _ _ _ rfl
  refine ⟨?_, ?_, ?_, ?_, rfl, rfl, rfl, rfl⟩
  · cases value with
    | nil =>
      simp only [isMissing, true_or, iff_true]
      exact ⟨_, rfl, rfl⟩
    | bool b => simp [isMissing, Required, Value.Kind, not_failsWith_pass]
    | int i => simp [isMissing, Required, Value.Kind, not_failsWith_pass]
    | float64 bits => simp [isMissing, Required, Value.Kind, not_failsWith_pass]
    | str s =>
      rw [hstr]
      simp [isMissing, Value.Kind, Value.String]
    | namedStr t s =>
      have : failsWith (Required msg field (.namedStr t s)) "MISSING_REQUIRED"
          ↔ strings.TrimSpace s = "" := failsWith_ite_iff _ _ _ rfl
      rw [this]
      simp [isMissing, Value.Kind, Value.String]
    | slice elems =>
      have : failsWith (Required msg field (.slice elems)) "MISSING_REQUIRED"
          ↔ (Value.slice elems).Len = 0 := failsWith_ite_iff _ _ _ rfl
      rw [this]
      simp [isMissing, Value.Kind]
    | array elems =>
      have : failsWith (Required msg field (.array elems)) "MISSING_REQUIRED"
          ↔ (Value.array elems).Len = 0 := failsWith_ite_iff _ _ _ rfl
      rw [this]
      simp [isMissing, Value.Kind]
    | goMap entries =>
      have : failsWith (Required msg field (.goMap entries)) "MISSING_REQUIRED"
          ↔ (Value.goMap entries).Len = 0 := failsWith_ite_iff _ _ _ rfl
      rw [this]
      simp [isMissing, Value.Kind]
    | struct t fields => simp [isMissing, Required, Value.Kind, not_failsWith_pass]
    | pointer target => simp [isMissing, Required, Value.Kind, not_failsWith_pass]
  · intro hnot
    cases value with
    | nil => exact absurd (Or.inl rfl) hnot
    | bool b => rfl
    | int i => rfl
    | float64 bits => rfl
    | str s =>
      have hne : ¬ strings.TrimSpace s = "" := fun h => hnot (Or.inr (Or.inl ⟨rfl, h⟩))
      simp only [Required, Value.Kind, Value.String, hne, if_false]
    | namedStr t s =>
      have hne : ¬ strings.TrimSpace s = "" := fun h => hnot (Or.inr (Or.inl ⟨rfl, h⟩))
      simp only [Required, Value.Kind, Value.String, hne, if_false]
    | slice elems =>
      have hne : ¬ (Value.slice elems).Len = 0 :=
        fun h => hnot (Or.inr (Or.inr ⟨Or.inl rfl, h⟩))
      simp only [Required, Value.Kind, hne, if_false]
    | array elems =>
      have hne : ¬ (Value.array elems).Len = 0 :=
        fun h => hnot (Or.inr (Or.inr ⟨Or.inr (Or.inl rfl), h⟩))
      simp only [Required, Value.Kind, hne, if_false]
    | goMap entries =>
      have hne : ¬ (Value.goMap entries).Len = 0 :=
        fun h => hnot (Or.inr (Or.inr ⟨Or.inr (Or.inr rfl), h⟩))
      simp only [Required, Value.Kind, hne, if_false]
    | struct t fields => rfl
    | pointer target => rfl
  · intro s hs
    exact (hstr s).mpr ((TrimSpace_eq_empty_iff s).mpr hs)
  · exact (hstr "").mpr rfl

/-- C10: for a value that is a string (of `len` L, its number of bytes) or a slice or
array (of L elements) and every bound n, `MinLength n` returns an error with code
INVALID_FORMAT exactly when L < n and `MaxLength n` exactly when L > n, and each passes
otherwise; a value whose length equals the bound passes both. -/
theorem length_rules_spec (n : Int) (msg : List String) (field : String) (value : Value)
    (L : Nat)
    (hL : (value.Kind = .String ∧ L = len value.String)
      ∨ ((value.Kind = .Slice ∨ value.Kind = .Array) ∧ L = value.Len)) :
    (failsWith (MinLength n msg field value) "INVALID_FORMAT" ↔ (L : Int) < n)
      ∧ (¬ (L : Int) < n → MinLength n msg field value = .ok none)
      ∧ (failsWith (MaxLength n msg field value) "INVALID_FORMAT" ↔ (L : Int) > n)
      ∧ (¬ (L : Int) > n → MaxLength n msg field value = .ok none)
      ∧ ((L : Int) = n →
          MinLength n msg field value = .ok none ∧ MaxLength n msg field value = .ok none) := by
  have hmin : (failsWith (MinLength n msg field value) "INVALID_FORMAT" ↔ (L : Int) < n)
      ∧ (¬ (L : Int) < n → MinLength n msg field value = .ok none) := by
    rcases hL with ⟨hk, hlen⟩ | ⟨hk | hk, hlen⟩
    · subst hlen
      refine ⟨?_, fun hnot => ?_⟩
      · simp only [MinLength, hk]
        exact failsWith_ite_iff _ _ _ rfl
      · simp only [MinLength, hk, hnot, if_false]
    · subst hlen
      refine ⟨?_, fun hnot => ?_⟩
      · simp only [MinLength, hk]
        exact failsWith_ite_iff _ _ _ rfl
      · simp only [MinLength, hk, hnot, if_false]
    · subst hlen
      refine ⟨?_, fun hnot => ?_⟩
      · simp only [MinLength, hk]
        exact failsWith_ite_iff _ _ _ rfl
      · simp only [MinLength, hk, hnot, if_false]
  have hmax : (failsWith (MaxLength n msg field value) "INVALID_FORMAT" ↔ (L : Int) > n)
      ∧ (¬ (L : Int) > n → MaxLength n msg field value = .ok none) := by
    rcases hL with ⟨hk, hlen⟩ | ⟨hk | hk, hlen⟩
    · subst hlen
      refine ⟨?_, fun hnot => ?_⟩
      · simp only [MaxLength, hk]
        exact failsWith_ite_iff _ _ _ rfl
      · simp only [MaxLength, hk, hnot, if_false]
    · subst hlen
      refine ⟨?_, fun hnot => ?_⟩
      · simp only [MaxLength, hk]
        exact failsWith_ite_iff _ _ _ rfl
      · simp only [MaxLength, hk, hnot, if_false]
    · subst hlen
      refine ⟨?_, fun hnot => ?_⟩
      · simp only [MaxLength, hk]
        exact failsWith_ite_iff _ _ _ rfl
      · simp only [MaxLength, hk, hnot, if_false]
  refine ⟨hmin.1, hmin.2, hmax.1, hmax.2, fun heq => ⟨hmin.2 ?_, hmax.2 ?_⟩⟩
  · omega
  · omega

/-- C10 at the values of the tests: "12345678" (8 bytes) passes `MinLength 8` and "123"
fails it; "short" passes `MaxLength 10` and "verylongusername" (16 bytes) fails it. -/
theorem length_rules_spec_witness :
    MinLength 8 [] "password" (.str "12345678") = .ok none
      ∧ failsWith (MinLength 8 [] "password" (.str "123")) "INVALID_FORMAT"
      ∧ MaxLength 10 [] "username" (.str "short") = .ok none
      ∧ failsWith (MaxLength 10 [] "username" (.str "verylongusername")) "INVALID_FORMAT" :=
  ⟨(length_rules_spec 8 [] "password" (.str "12345678") 8 (Or.inl ⟨rfl, rfl⟩)).2.1
      (by decide),
    (length_rules_spec 8 [] "password" (.str "123") 3 (Or.inl ⟨rfl, rfl⟩)).1.mpr (by decide),
    (length_rules_spec 10 [] "username" (.str "short") 5 (Or.inl ⟨rfl, rfl⟩)).2.2.2.1
      (by decide),
    (length_rules_spec 10 [] "username" (.str "verylongusername") 16
      (Or.inl ⟨rfl, rfl⟩)).2.2.1.mpr (by decide)⟩

/-! ## Theorems: the regular-expression matcher -/

open regexp

theorem Matches_noMatch (w : List Char) : ¬ Node.Matches .noMatch w := by
  intro h
  cases h

theorem Matches_emptyMatch_iff (w : List Char) : Node.Matches .emptyMatch w ↔ w = [] := by
  constructor
  · intro h
    cases h
    rfl
  · rintro rfl
    exact .emptyMatch

theorem Matches_literal_iff (c : Char) (w : List Char) :
    Node.Matches (.literal c) w ↔ w = [c] := by
  constructor
  · intro h
    cases h
    rfl
  · rintro rfl
    exact .literal c

theorem Matches_charClass_iff (ranges : List (Char × Char)) (w : List Char) :
    Node.Matches (.charClass ranges) w ↔ ∃ c, w = [c] ∧ inRanges ranges c = true := by
  constructor
  · intro h
    cases h with
    | charClass _ c hc => exact ⟨c, rfl, hc⟩
  · rintro ⟨c, rfl, hc⟩
    exact .charClass ranges c hc

theorem Matches_concat_iff (r s : Node) (w : List Char) :
    Node.Matches (.concat r s) w ↔
      ∃ u v, w = u ++ v ∧ Node.Matches r u ∧ Node.Matches s v := by
  constructor
  · intro h
    cases h with
    | concat _ _ u v hr hs => exact ⟨u, v, rfl, hr, hs⟩
  · rintro ⟨u, v, rfl, hr, hs⟩
    exact .concat r s u v hr hs

theorem Matches_alternate_iff (r s : Node) (w : List Char) :
    Node.Matches (.alternate r s) w ↔ Node.Matches r w ∨ Node.Matches s w := by
  constructor
  · intro h
    cases h with
    | alternateLeft _ _ _ hr => exact Or.inl hr
    | alternateRight _ _ _ hs => exact Or.inr hs
  · rintro (hr | hs)
    · exact .alternateLeft r s w hr
    · exact .alternateRight r s w hs

/-- A non-empty match of a star opens with a non-empty match of its body. -/
theorem Matches_star_cons (r : Node) (c : Char) (w : List Char)
    (h : Node.Matches (.star r) (c :: w)) :
    ∃ u v, w = u ++ v ∧ Node.Matches r (c :: u) ∧ Node.Matches (.star r) v := by
  generalize hq : Node.star r = q at h
  generalize hx : c :: w = x at h
  induction h generalizing w with
  | emptyMatch => cases hq
  | literal _ => cases hq
  | charClass _ _ _ => cases hq
  | concat _ _ _ _ _ _ _ _ => cases hq
  | alternateLeft _ _ _ _ _ => cases hq
  | alternateRight _ _ _ _ _ => cases hq
  | starEmpty _ => cases hx
  | starStep r1 u v hr hs _ ihs =>
    cases hq
    cases u with
    | nil => exact ihs w rfl hx
    | cons d u1 =>
      simp only [List.cons_append, List.cons.injEq] at hx
      obtain ⟨rfl, rfl⟩ := hx
      exact ⟨u1, v, rfl, hr, hs⟩

theorem nullable_iff (r : Node) : r.nullable = true ↔ Node.Matches r [] := by
  induction r with
  | noMatch => simp [Node.nullable, Matches_noMatch]
  | emptyMatch => simp [Node.nullable, Matches_emptyMatch_iff]
  | literal c => simp [Node.nullable, Matches_literal_iff]
  | charClass ranges => simp [Node.nullable, Matches_charClass_iff]
  | concat r s ihr ihs =>
    simp only [Node.nullable, Bool.and_eq_true, ihr, ihs, Matches_concat_iff]
    constructor
    · rintro ⟨hr, hs⟩
      exact ⟨[], [], rfl, hr, hs⟩
    · rintro ⟨u, v, huv, hr, hs⟩
      have hnil := List.append_eq_nil.mp huv.symm
      rw [hnil.1] at hr
      rw [hnil.2] at hs
      exact ⟨hr, hs⟩
  | alternate r s ihr ihs =>
    simp only [Node.nullable, Bool.or_eq_true, ihr, ihs, Matches_alternate_iff]
  | star r _ =>
    simp only [Node.nullable, true_iff]
    exact .starEmpty r

theorem Matches_deriv_iff (r : Node) (c : Char) (w : List Char) :
    Node.Matches (r.deriv c) w ↔ Node.Matches r (c :: w) := by
  induction r generalizing w with
  | noMatch => simp [Node.deriv, Matches_noMatch]
  | emptyMatch => simp [Node.deriv, Matches_noMatch, Matches_emptyMatch_iff]
  | literal d =>
    by_cases hd : d = c
    · simp [Node.deriv, hd, Matches_emptyMatch_iff, Matches_literal_iff]
    · have hd2 : ¬ c = d := fun h => hd h.symm
      simp [Node.deriv, hd, hd2, Matches_noMatch, Matches_literal_iff]
  | charClass ranges =>
    by_cases hc : inRanges ranges c = true
    · simp only [Node.deriv, hc, if_true, Matches_emptyMatch_iff, Matches_charClass_iff]
      constructor
      · rintro rfl
        exact ⟨c, rfl, hc⟩
      · rintro ⟨d, hd, _⟩
        simp only [List.cons.injEq] at hd
        exact hd.2
    · simp only [Node.deriv, hc, if_false, Matches_charClass_iff]
      constructor
      · intro h
        exact absurd h (Matches_noMatch w)
      · rintro ⟨d, hd, hin⟩
        simp only [List.cons.injEq] at hd
        rw [← hd.1] at hin
        exact absurd hin hc
  | concat r s ihr ihs =>
    have hcons : Node.Matches (.concat r s) (c :: w) ↔
        (∃ u v, w = u ++ v ∧ Node.Matches r (c :: u) ∧ Node.Matches s v)
          ∨ (Node.Matches r [] ∧ Node.Matches s (c :: w)) := by
      rw [Matches_concat_iff]
      constructor
      · rintro ⟨u, v, huv, hr, hs⟩
        cases u with
        | nil =>
          simp only [List.nil_append] at huv
          rw [← huv] at hs
          exact Or.inr ⟨hr, hs⟩
        | cons d u1 =>
          simp only [List.cons_append, List.cons.injEq] at huv
          obtain ⟨rfl, rfl⟩ := huv
          exact Or.inl ⟨u1, v, rfl, hr, hs⟩
      · rintro (⟨u, v, rfl, hr, hs⟩ | ⟨hr, hs⟩)
        · exact ⟨c :: u, v, rfl, hr, hs⟩
        · exact ⟨[], c :: w, rfl, hr, hs⟩
    have hleft : Node.Matches (.concat (r.deriv c) s) w ↔
        ∃ u v, w = u ++ v ∧ Node.Matches r (c :: u) ∧ Node.Matches s v := by
      rw [Matches_concat_iff]
      simp only [ihr]
    rw [hcons]
    by_cases hn : r.nullable = true
    · simp only [Node.deriv, hn, if_true, Matches_alternate_iff, hleft, ihs]
      have hr : Node.Matches r [] := (nullable_iff r).mp hn
      simp only [hr, true_and]
    · have hn2 : r.nullable = false := by simpa using hn
      simp only [Node.deriv, hn2, Bool.false_eq_true, if_false, hleft]
      have hr : ¬ Node.Matches r [] := fun h => hn ((nullable_iff r).mpr h)
      simp only [hr, false_and, or_false]
  | alternate r s ihr ihs =>
    simp only [Node.deriv, Matches_alternate_iff, ihr, ihs]
  | star r ih =>
    simp only [Node.deriv, Matches_concat_iff, ih]
    constructor
    · rintro ⟨u, v, rfl, hr, hs⟩
      exact .starStep r (c :: u) v hr hs
    · intro h
      exact Matches_star_cons r c w h

/-- The matcher decides the language of the expression. -/
theorem matchRunes_iff (r : Node) (w : List Char) :
    r.matchRunes w = true ↔ Node.Matches r w := by
  induction w generalizing r with
  | nil => simpa only [Node.matchRunes] using nullable_iff r
  | cons c cs ih =>
    simp only [Node.matchRunes]
    rw [ih, Matches_deriv_iff]

/-! ## Theorems: the rule `Email` -/

theorem Matches_star_charClass_iff (ranges : List (Char × Char)) (w : List Char) :
    Node.Matches (.star (.charClass ranges)) w ↔ ∀ c ∈ w, inRanges ranges c = true := by
  constructor
  · intro h
    generalize hq : Node.star (.charClass ranges) = q at h
    induction h with
    | emptyMatch => cases hq
    | literal _ => cases hq
    | charClass _ _ _ => cases hq
    | concat _ _ _ _ _ _ _ _ => cases hq
    | alternateLeft _ _ _ _ _ => cases hq
    | alternateRight _ _ _ _ _ => cases hq
    | starEmpty _ =>
      intro c hc
      cases hc
    | starStep r1 u v hr _ _ ihs =>
      cases hq
      obtain ⟨d, rfl, hd⟩ := (Matches_charClass_iff _ _).mp hr
      intro x hx
      rcases List.mem_cons.mp hx with rfl | hx
      · exact hd
      · exact ihs rfl x hx
  · intro h
    induction w with
    | nil => exact .starEmpty _
    | cons c w ih =>
      exact .starStep _ [c] w (.charClass _ c (h c (List.mem_cons_self _ _)))
        (ih fun x hx => h x (List.mem_cons_of_mem _ hx))

theorem Matches_plus_charClass_iff (ranges : List (Char × Char)) (w : List Char) :
    Node.Matches (Node.plus (.charClass ranges)) w ↔
      w ≠ [] ∧ ∀ c ∈ w, inRanges ranges c = true := by
  unfold Node.plus
  rw [Matches_concat_iff]
  simp only [Matches_charClass_iff, Matches_star_charClass_iff]
  constructor
  · rintro ⟨u, v, rfl, ⟨c, rfl, hc⟩, hv⟩
    refine ⟨by simp, ?_⟩
    intro x hx
    rcases List.mem_cons.mp hx with rfl | hx
    · exact hc
    · exact hv x hx
  · rintro ⟨hne, hall⟩
    cases w with
    | nil => exact absurd rfl hne
    | cons c w =>
      exact ⟨[c], w, rfl, ⟨c, rfl, hall c (List.mem_cons_self _ _)⟩,
        fun x hx => hall x (List.mem_cons_of_mem _ hx)⟩

theorem Matches_repeatMin_two_charClass_iff (ranges : List (Char × Char)) (w : List Char) :
    Node.Matches (Node.repeatMin 2 (.charClass ranges)) w ↔
      2 ≤ w.length ∧ ∀ c ∈ w, inRanges ranges c = true := by
  have hunfold : Node.repeatMin 2 (.charClass ranges) =
      .concat (.charClass ranges) (Node.plus (.charClass ranges)) := rfl
  rw [hunfold, Matches_concat_iff]
  simp only [Matches_charClass_iff, Matches_plus_charClass_iff]
  constructor
  · rintro ⟨u, v, rfl, ⟨c, rfl, hc⟩, hne, hv⟩
    refine ⟨?_, ?_⟩
    · have hpos : 0 < v.length := List.length_pos.mpr hne
      simp only [List.cons_append, List.nil_append, List.length_cons]
      omega
    · intro x hx
      rcases List.mem_cons.mp hx with rfl | hx
      · exact hc
      · exact hv x hx
  · rintro ⟨hlen, hall⟩
    cases w with
    | nil => simp at hlen
    | cons c w =>
      refine ⟨[c], w, rfl, ⟨c, rfl, hall c (List.mem_cons_self _ _)⟩, ?_,
        fun x hx => hall x (List.mem_cons_of_mem _ hx)⟩
      intro hnil
      rw [hnil] at hlen
      simp at hlen

/-- A character equals `d` exactly when it lies in the range from `d` to `d`. -/
theorem char_eq_iff_in_range (c d : Char) : c = d ↔ (d ≤ c ∧ c ≤ d) := by
  constructor
  · rintro rfl
    exact ⟨le_refl _, le_refl _⟩
  · rintro ⟨h1, h2⟩
    exact le_antisymm h2 h1

/-- Membership in a class, one range at a time. -/
theorem inRanges_cons (lo hi : Char) (rest : List (Char × Char)) (c : Char) :
    inRanges ((lo, hi) :: rest) c = true ↔ (lo ≤ c ∧ c ≤ hi) ∨ inRanges rest c = true := by
  simp [inRanges]

/-- No character lies in the class without ranges. -/
theorem inRanges_nil (c : Char) : inRanges [] c = true ↔ False := by
  simp [inRanges]

theorem inRanges_letter_iff (c : Char) :
    inRanges [('a', 'z'), ('A', 'Z')] c = true ↔ isAsciiLetter c := by
  simp only [inRanges_cons, inRanges_nil, isAsciiLetter]
  tauto

theorem inRanges_domain_iff (c : Char) :
    inRanges [('a', 'z'), ('A', 'Z'), ('0', '9'), ('.', '.'), ('-', '-')] c = true
      ↔ isDomainChar c := by
  simp only [inRanges_cons, inRanges_nil, isDomainChar, char_eq_iff_in_range c]
  tauto

/-- The ranges of the local class in the order of the pattern and of the specification. -/
theorem or_reorder_local (a b d e f g h i : Prop) :
    (a ∨ b ∨ d ∨ e ∨ f ∨ g ∨ g ∨ h ∨ i ∨ False) ↔ (b ∨ a ∨ d ∨ e ∨ f ∨ g ∨ h ∨ i) := by
  constructor
  · rintro (x | x | x | x | x | x | x | x | x | x)
    · exact Or.inr (Or.inl x)
    · exact Or.inl x
    · exact Or.inr (Or.inr (Or.inl x))
    · exact Or.inr (Or.inr (Or.inr (Or.inl x)))
    · exact Or.inr (Or.inr (Or.inr (Or.inr (Or.inl x))))
    · exact Or.inr (Or.inr (Or.inr (Or.inr (Or.inr (Or.inl x)))))
    · exact Or.inr (Or.inr (Or.inr (Or.inr (Or.inr (Or.inl x)))))
    · exact Or.inr (Or.inr (Or.inr (Or.inr (Or.inr (Or.inr (Or.inl x))))))
    · exact Or.inr (Or.inr (Or.inr (Or.inr (Or.inr (Or.inr (Or.inr x))))))
    · exact x.elim
  · rintro (x | x | x | x | x | x | x | x)
    · exact Or.inr (Or.inl x)
    · exact Or.inl x
    · exact Or.inr (Or.inr (Or.inl x))
    · exact Or.inr (Or.inr (Or.inr (Or.inl x)))
    · exact Or.inr (Or.inr (Or.inr (Or.inr (Or.inl x))))
    · exact Or.inr (Or.inr (Or.inr (Or.inr (Or.inr (Or.inl x)))))
    · exact Or.inr (Or.inr (Or.inr (Or.inr (Or.inr (Or.inr (Or.inr (Or.inl x)))))))
    · exact Or.inr (Or.inr (Or.inr (Or.inr (Or.inr (Or.inr (Or.inr (Or.inr (Or.inl x))))))))

theorem inRanges_local_iff (c : Char) :
    inRanges [('a', 'z'), ('A', 'Z'), ('0', '9'), ('.', '.'), ('_', '_'), ('%', '%'),
      ('%', '%'), ('+', '+'), ('-', '-')] c = true ↔ isLocalChar c := by
  simp only [inRanges_cons, inRanges_nil, isLocalChar, char_eq_iff_in_range c]
  exact or_reorder_local _ _ _ _ _ _ _ _

/-- The pattern of `Email` matches exactly the strings of the form the specification
describes. -/
theorem emailRegex_MatchString_iff (s : String) :
    emailRegex.MatchString s = true ↔ isEmailForm s := by
  have hrun : emailRegex.MatchString s = emailRegex.body.matchRunes s.data := rfl
  rw [hrun, matchRunes_iff]
  simp only [emailRegex, isEmailForm, Matches_concat_iff, Matches_literal_iff,
    Matches_plus_charClass_iff, Matches_repeatMin_two_charClass_iff, inRanges_local_iff,
    inRanges_domain_iff, inRanges_letter_iff]
  constructor
  · rintro ⟨loc, r1, h1, ⟨hloc1, hloc2⟩, a, r2, h2, ha, dom, r3, h3, ⟨hdom1, hdom2⟩, d, tld,
      h4, hd, htld1, htld2⟩
    refine ⟨loc, dom, tld, ?_, hloc1, hloc2, hdom1, hdom2, htld1, htld2⟩
    rw [h1, h2, h3, h4, ha, hd]
    rfl
  · rintro ⟨loc, dom, tld, hs, hloc1, hloc2, hdom1, hdom2, htld1, htld2⟩
    exact ⟨loc, '@' :: (dom ++ '.' :: tld), hs, ⟨hloc1, hloc2⟩, ['@'], dom ++ '.' :: tld, rfl,
      rfl, dom, '.' :: tld, rfl, ⟨hdom1, hdom2⟩, ['.'], tld, rfl, rfl, htld1, htld2⟩

/-- C9: `Email` returns an error with code INVALID_EMAIL exactly when the value is not a
string, or is the empty string, or is not, as a whole, of the form `local@domain.tld`
(local: one or more of `[A-Za-z0-9._%+-]`; domain: one or more of `[A-Za-z0-9.-]`; tld:
two or more ASCII letters); otherwise it returns no error. "test@example.com" passes and
"invalid-email" fails. A string is a value of the type `string`: the rule reads the value
by the type assertion `value.(string)`, so a value of a defined string type fails. -/
theorem Email_spec (msg : List String) (field : String) (value : Value) :
    (failsWith (Email msg field value) "INVALID_EMAIL" ↔
        ((∀ s : String, value ≠ .str s) ∨ value = .str ""
          ∨ ∃ s : String, value = .str s ∧ ¬ isEmailForm s))
      ∧ ((∃ s : String, value = .str s ∧ s ≠ "" ∧ isEmailForm s) →
        Email msg field value = .ok none)
      ∧ Email msg field (.str "test@example.com") = .ok none
      ∧ failsWith (Email msg field (.str "invalid-email")) "INVALID_EMAIL"
      ∧ (∀ t s : String, failsWith (Email msg field (.namedStr t s)) "INVALID_EMAIL") := by
  have hfail : ∀ e0 : LayerError, e0.Code = "INVALID_EMAIL" →
      failsWith (.ok (some e0)) "INVALID_EMAIL" := fun e0 h => ⟨e0, rfl, h⟩
  have hstr : ∀ s : String, failsWith (Email msg field (.str s)) "INVALID_EMAIL" ↔
      (s = "" ∨ ¬ isEmailForm s) := by
    intro s
    by_cases hs : s = ""
    · simp only [Email, hs, if_true, true_or, iff_true]
      exact hfail _ rfl
    · by_cases hm : emailRegex.MatchString s = true
      · have hform : isEmailForm s := (emailRegex_MatchString_iff s).mp hm
        simp only [Email, hs, hm, if_false, Bool.not_true, Bool.false_eq_true, false_or,
          hform, not_true_eq_false, iff_false]
        exact not_failsWith_pass _
      · have hform : ¬ isEmailForm s := fun h => hm ((emailRegex_MatchString_iff s).mpr h)
        have hm2 : emailRegex.MatchString s = false := by simpa using hm
        simp only [Email, hs, hm2, if_false, Bool.not_false, if_true, false_or, hform,
          not_false_eq_true, iff_true]
        exact hfail _ rfl
  have hother : ∀ v : Value, (∀ s : String, v ≠ .str s) →
      Email msg field v = .ok (some (NewValidationError ErrInvalidEmail
        (messageOr ("Field '" ++ field ++ "' must be a valid email") msg)
        [some [("field", .str field)]])) := by
    intro v hv
    cases v with
    | str s => exact absurd rfl (hv s)
    | nil => rfl
    | bool b => rfl
    | int i => rfl
    | float64 bits => rfl
    | namedStr t s => rfl
    | slice elems => rfl
    | array elems => rfl
    | goMap entries => rfl
    | struct t fields => rfl
    | pointer target => rfl
  refine ⟨?_, ?_, ?_, ?_, ?_⟩
  · by_cases hv : ∀ s : String, value ≠ .str s
    · rw [hother value hv]
      exact ⟨fun _ => Or.inl hv, fun _ => hfail _ rfl⟩
    · push_neg at hv
      obtain ⟨s, rfl⟩ := hv
      rw [hstr]
      constructor
      · rintro (h | h)
        · exact Or.inr (Or.inl (by rw [h]))
        · exact Or.inr (Or.inr ⟨s, rfl, h⟩)
      · rintro (h | h | ⟨s1, h1, h2⟩)
        · exact absurd rfl (h s)
        · cases h
          exact Or.inl rfl
        · cases h1
          exact Or.inr h2
  · rintro ⟨s, rfl, hne, hform⟩
    have hm : emailRegex.MatchString s = true := (emailRegex_MatchString_iff s).mpr hform
    simp only [Email, hne, hm, if_false, Bool.not_true, Bool.false_eq_true]
  · rfl
  · exact (hstr "invalid-email").mpr (Or.inr (fun h => by
      have hm := (emailRegex_MatchString_iff "invalid-email").mpr h
      revert hm
      decide))
  · intro t s
    rw [hother (.namedStr t s) (fun s1 h => by cases h)]
    exact hfail _ rfl

/-! ## Theorems: the permissive default of the length rules, `Pattern`, `Custom` -/

/-- C11: on a value that is neither a string nor a slice or array (nil, an integer, a
float, a boolean, a map, a struct, a pointer), `MinLength n` and `MaxLength n` return no
error, for every bound n of either sign. -/
theorem length_rules_permissive (n : Int) (msg : List String) (field : String) (value : Value)
    (hk : value.Kind ≠ .String ∧ value.Kind ≠ .Slice ∧ value.Kind ≠ .Array) :
    MinLength n msg field value = .ok none ∧ MaxLength n msg field value = .ok none := by
  obtain ⟨h1, h2, h3⟩ := hk
  cases value with
  | nil => exact ⟨rfl, rfl⟩
  | bool b => exact ⟨rfl, rfl⟩
  | int i => exact ⟨rfl, rfl⟩
  | float64 bits => exact ⟨rfl, rfl⟩
  | str s => exact absurd rfl h1
  | namedStr t s => exact absurd rfl h1
  | slice elems => exact absurd rfl h2
  | array elems => exact absurd rfl h3
  | goMap entries => exact ⟨rfl, rfl⟩
  | struct t fields => exact ⟨rfl, rfl⟩
  | pointer target => exact ⟨rfl, rfl⟩

/-- C11 at a negative bound and a large one, on nil, an integer, a float, a boolean, a
map and a struct. -/
theorem length_rules_permissive_witness :
    (MinLength 5 [] "f" .nil = .ok none ∧ MaxLength (-1) [] "f" .nil = .ok none)
      ∧ (MinLength 5 [] "f" (.int 0) = .ok none ∧ MaxLength (-1) [] "f" (.int 0) = .ok none)
      ∧ (MinLength 5 [] "f" (.float64 0) = .ok none
        ∧ MaxLength (-1) [] "f" (.float64 0) = .ok none)
      ∧ (MinLength 5 [] "f" (.bool true) = .ok none
        ∧ MaxLength (-1) [] "f" (.bool true) = .ok none)
      ∧ (MinLength 5 [] "f" (.goMap []) = .ok none
        ∧ MaxLength (-1) [] "f" (.goMap []) = .ok none)
      ∧ (MinLength 5 [] "f" (.struct "T" []) = .ok none
        ∧ MaxLength (-1) [] "f" (.struct "T" []) = .ok none) :=
  ⟨⟨(length_rules_permissive 5 [] "f" .nil (by decide)).1,
      (length_rules_permissive (-1) [] "f" .nil (by decide)).2⟩,
    ⟨(length_rules_permissive 5 [] "f" (.int 0) (by decide)).1,
      (length_rules_permissive (-1) [] "f" (.int 0) (by decide)).2⟩,
    ⟨(length_rules_permissive 5 [] "f" (.float64 0) (by decide)).1,
      (length_rules_permissive (-1) [] "f" (.float64 0) (by decide)).2⟩,
    ⟨(length_rules_permissive 5 [] "f" (.bool true) (by decide)).1,
      (length_rules_permissive (-1) [] "f" (.bool true) (by decide)).2⟩,
    ⟨(length_rules_permissive 5 [] "f" (.goMap []) (by decide)).1,
      (length_rules_permissive (-1) [] "f" (.goMap []) (by decide)).2⟩,
    ⟨(length_rules_permissive 5 [] "f" (.struct "T" []) (by decide)).1,
      (length_rules_permissive (-1) [] "f" (.struct "T" []) (by decide)).2⟩⟩

/-- C12: for a well-formed pattern p (one `regexp.MustCompile` compiles, to `re`),
`Pattern p` returns an error with code INVALID_FORMAT exactly when the value is not a
string or the string does not match p; a string that matches yields no error. -/
theorem Pattern_spec (mustCompile : String → Except String Regexp) (pattern : String)
    (re : Regexp) (msg : List String) (field : String) (value : Value)
    (hwf : mustCompile pattern = .ok re) :
    (failsWith (Pattern mustCompile pattern msg field value) "INVALID_FORMAT" ↔
        ((∀ s : String, value ≠ .str s)
          ∨ ∃ s : String, value = .str s ∧ re.MatchString s = false))
      ∧ (∀ s : String, value = .str s → re.MatchString s = true →
          Pattern mustCompile pattern msg field value = .ok none) := by
  have hstr : ∀ s : String, Pattern mustCompile pattern msg field (.str s) =
      if re.MatchString s = false then
        .ok (some (NewValidationError ErrInvalidFormat
          (messageOr ("Field '" ++ field ++ "' must match pattern") msg)
          [some [("field", .str field), ("pattern", .str pattern)]]))
      else .ok none := by
    intro s
    simp only [Pattern, hwf]
    cases re.MatchString s <;> rfl
  refine ⟨?_, ?_⟩
  · by_cases hv : ∀ s : String, value ≠ .str s
    · have hres : failsWith (Pattern mustCompile pattern msg field value) "INVALID_FORMAT" := by
        cases value with
        | str s => exact absurd rfl (hv s)
        | nil => exact ⟨_, rfl, rfl⟩
        | bool b => exact ⟨_, rfl, rfl⟩
        | int i => exact ⟨_, rfl, rfl⟩
        | float64 bits => exact ⟨_, rfl, rfl⟩
        | namedStr t s => exact ⟨_, rfl, rfl⟩
        | slice elems => exact ⟨_, rfl, rfl⟩
        | array elems => exact ⟨_, rfl, rfl⟩
        | goMap entries => exact ⟨_, rfl, rfl⟩
        | struct t fields => exact ⟨_, rfl, rfl⟩
        | pointer target => exact ⟨_, rfl, rfl⟩
      exact ⟨fun _ => Or.inl hv, fun _ => hres⟩
    · push_neg at hv
      obtain ⟨s, rfl⟩ := hv
      rw [hstr]
      refine Iff.trans (failsWith_ite_iff _ _ _ rfl) ?_
      constructor
      · intro h
        exact Or.inr ⟨s, rfl, h⟩
      · rintro (h | ⟨s1, h1, h2⟩)
        · exact absurd rfl (h s)
        · cases h1
          exact h2
  · rintro s rfl hm
    rw [hstr]
    simp [hm]

/-- C12 at the values of `TestValidate_Pattern`: "123-456-7890" passes the pattern
`^\d{3}-\d{3}-\d{4}$` and "1234567890" fails it. -/
theorem Pattern_spec_witness :
    Pattern mustCompileExamples "^\\d{3}-\\d{3}-\\d{4}$" [] "phone" (.str "123-456-7890")
        = .ok none
      ∧ failsWith
        (Pattern mustCompileExamples "^\\d{3}-\\d{3}-\\d{4}$" [] "phone" (.str "1234567890"))
        "INVALID_FORMAT" :=
  ⟨(Pattern_spec mustCompileExamples "^\\d{3}-\\d{3}-\\d{4}$" phoneRegex [] "phone"
      (.str "123-456-7890") rfl).2 "123-456-7890" rfl (by decide),
    (Pattern_spec mustCompileExamples "^\\d{3}-\\d{3}-\\d{4}$" phoneRegex [] "phone"
      (.str "1234567890") rfl).1.mpr (Or.inr ⟨"1234567890", rfl, by decide⟩)⟩

/-- C13: `Custom predicate message` returns no error when the predicate holds of the
value, and otherwise an error whose code is INVALID_FORMAT and whose message is exactly
the given message. With the predicate of the test (an integer of at least 18), the field
("age", 15) fails with the message and ("age", 20) passes. -/
theorem Custom_spec (validator : Value → Bool) (msg : String) (field : String) (value : Value) :
    (validator value = true → Custom validator msg field value = .ok none)
      ∧ (validator value = false →
          ∃ e : LayerError, Custom validator msg field value = .ok (some e)
            ∧ e.Code = "INVALID_FORMAT" ∧ e.Error = msg)
      ∧ (∃ e : LayerError,
          Validate [Field "age" (.int 15) [Custom isAdult "Must be at least 18 years old"]]
              = .ok (some e)
            ∧ e.Code = "INVALID_FORMAT" ∧ e.Error = "Must be at least 18 years old")
      ∧ Validate [Field "age" (.int 20) [Custom isAdult "Must be at least 18 years old"]]
          = .ok none := by
  refine ⟨?_, ?_, ?_, rfl⟩
  · intro h
    simp [Custom, h]
  · intro h
    refine ⟨NewValidationError ErrInvalidFormat msg [some [("field", .str field)]], ?_, rfl,
      rfl⟩
    simp only [Custom, h, Bool.not_false, if_true]
  · exact ⟨NewValidationError ErrInvalidFormat "Must be at least 18 years old"
      [some [("field", .str "age")]], rfl, rfl, rfl⟩

/-! ## Theorems: what a failing rule returns -/

/-- A result that is an error under a condition and a pass otherwise, when it is an
error, is that error, and the condition holds. -/
theorem ite_result_eq (c : Prop) [Decidable c] (e0 e : LayerError)
    (h : (if c then .ok (some e0) else .ok none : Except String (Option LayerError))
      = .ok (some e)) : c ∧ e = e0 := by
  by_cases hc : c
  · simp only [hc, if_true, Except.ok.injEq, Option.some.injEq] at h
    exact ⟨hc, h.symm⟩
  · simp only [hc, if_false, Except.ok.injEq] at h
    cases h

/-- The error of `Required`. -/
theorem Required_error_eq (msg : List String) (field : String) (value : Value)
    (e : LayerError) (h : Required msg field value = .ok (some e)) :
    e = NewValidationError ErrMissingRequired
      (messageOr ("Field '" ++ field ++ "' is required") msg) [some [("field", .str field)]] := by
  cases value with
  | nil =>
    simp only [Required, Except.ok.injEq, Option.some.injEq] at h
    exact h.symm
  | bool b => cases h
  | int i => cases h
  | float64 bits => cases h
  | str s => exact (ite_result_eq _ _ _ h).2
  | namedStr t s => exact (ite_result_eq _ _ _ h).2
  | slice elems => exact (ite_result_eq _ _ _ h).2
  | array elems => exact (ite_result_eq _ _ _ h).2
  | goMap entries => exact (ite_result_eq _ _ _ h).2
  | struct t fields => cases h
  | pointer target => cases h

/-- The error of `Email`: on a string that is not empty it carries the string. -/
theorem Email_error_eq (msg : List String) (field : String) (value : Value)
    (e : LayerError) (h : Email msg field value = .ok (some e)) :
    (e = NewValidationError ErrInvalidEmail
          (messageOr ("Field '" ++ field ++ "' must be a valid email") msg)
          [some [("field", .str field)]]
        ∧ ∀ s : String, value = .str s → s = "")
      ∨ ∃ s : String, value = .str s ∧ s ≠ "" ∧ emailRegex.MatchString s = false
        ∧ e = NewValidationError ErrInvalidEmail
          (messageOr ("Field '" ++ field ++ "' must be a valid email") msg)
          [some [("field", .str field), ("value", .str s)]] := by
  have hother : ∀ v : Value, (∀ s : String, v ≠ .str s) →
      Email msg field v = .ok (some (NewValidationError ErrInvalidEmail
        (messageOr ("Field '" ++ field ++ "' must be a valid email") msg)
        [some [("field", .str field)]])) := by
    intro v hv
    cases v with
    | str s => exact absurd rfl (hv s)
    | nil => rfl
    | bool b => rfl
    | int i => rfl
    | float64 bits => rfl
    | namedStr t s => rfl
    | slice elems => rfl
    | array elems => rfl
    | goMap entries => rfl
    | struct t fields => rfl
    | pointer target => rfl
  by_cases hv : ∀ s : String, value ≠ .str s
  · rw [hother value hv] at h
    simp only [Except.ok.injEq, Option.some.injEq] at h
    exact Or.inl ⟨h.symm, fun s hs => absurd hs (hv s)⟩
  · push_neg at hv
    obtain ⟨s, rfl⟩ := hv
    by_cases hs : s = ""
    · simp only [Email, hs, if_true, Except.ok.injEq, Option.some.injEq] at h
      refine Or.inl ⟨h.symm, fun s1 h1 => ?_⟩
      cases h1
      exact hs
    · cases hm : emailRegex.MatchString s with
      | true =>
        simp only [Email, hs, hm, if_false, Bool.not_true, Bool.false_eq_true] at h
        cases h
      | false =>
        simp only [Email, hs, hm, if_false, Bool.not_false, if_true, Except.ok.injEq,
          Option.some.injEq] at h
        exact Or.inr ⟨s, rfl, hs, hm, h.symm⟩

/-- The error of `MinLength`. -/
theorem MinLength_error_eq (n : Int) (msg : List String) (field : String) (value : Value)
    (e : LayerError) (h : MinLength n msg field value = .ok (some e)) :
    e = NewValidationError ErrInvalidFormat
      (messageOr ("Field '" ++ field ++ "' must have at least " ++ toString n ++ " characters")
        msg)
      [some [("field", .str field), ("min", .int n)]] := by
  cases value with
  | nil => cases h
  | bool b => cases h
  | int i => cases h
  | float64 bits => cases h
  | str s => exact (ite_result_eq _ _ _ h).2
  | namedStr t s => exact (ite_result_eq _ _ _ h).2
  | slice elems => exact (ite_result_eq _ _ _ h).2
  | array elems => exact (ite_result_eq _ _ _ h).2
  | goMap entries => cases h
  | struct t fields => cases h
  | pointer target => cases h

/-- The error of `MaxLength`. -/
theorem MaxLength_error_eq (n : Int) (msg : List String) (field : String) (value : Value)
    (e : LayerError) (h : MaxLength n msg field value = .ok (some e)) :
    e = NewValidationError ErrInvalidFormat
      (messageOr ("Field '" ++ field ++ "' must have at most " ++ toString n ++ " characters")
        msg)
      [some [("field", .str field), ("max", .int n)]] := by
  cases value with
  | nil => cases h
  | bool b => cases h
  | int i => cases h
  | float64 bits => cases h
  | str s => exact (ite_result_eq _ _ _ h).2
  | namedStr t s => exact (ite_result_eq _ _ _ h).2
  | slice elems => exact (ite_result_eq _ _ _ h).2
  | array elems => exact (ite_result_eq _ _ _ h).2
  | goMap entries => cases h
  | struct t fields => cases h
  | pointer target => cases h

/-- The error of `Pattern`: on a string it carries the pattern. -/
theorem Pattern_error_eq (mustCompile : String → Except String Regexp) (pattern : String)
    (msg : List String) (field : String) (value : Value) (e : LayerError)
    (h : Pattern mustCompile pattern msg field value = .ok (some e)) :
    (e = NewValidationError ErrInvalidFormat
          (messageOr ("Field '" ++ field ++ "' must match pattern") msg)
          [some [("field", .str field)]]
        ∧ ∀ s : String, value ≠ .str s)
      ∨ ∃ s : String, value = .str s
        ∧ e = NewValidationError ErrInvalidFormat
          (messageOr ("Field '" ++ field ++ "' must match pattern") msg)
          [some [("field", .str field), ("pattern", .str pattern)]] := by
  have hother : ∀ v : Value, (∀ s : String, v ≠ .str s) →
      Pattern mustCompile pattern msg field v = .ok (some (NewValidationError ErrInvalidFormat
        (messageOr ("Field '" ++ field ++ "' must match pattern") msg)
        [some [("field", .str field)]])) := by
    intro v hv
    cases v with
    | str s => exact absurd rfl (hv s)
    | nil => rfl
    | bool b => rfl
    | int i => rfl
    | float64 bits => rfl
    | namedStr t s => rfl
    | slice elems => rfl
    | array elems => rfl
    | goMap entries => rfl
    | struct t fields => rfl
    | pointer target => rfl
  by_cases hv : ∀ s : String, value ≠ .str s
  · rw [hother value hv] at h
    simp only [Except.ok.injEq, Option.some.injEq] at h
    exact Or.inl ⟨h.symm, hv⟩
  · push_neg at hv
    obtain ⟨s, rfl⟩ := hv
    refine Or.inr ⟨s, rfl, ?_⟩
    cases hc : mustCompile pattern with
    | error p =>
      simp only [Pattern, hc] at h
      cases h
    | ok re =>
      simp only [Pattern, hc] at h
      cases hm : re.MatchString s with
      | true =>
        simp only [hm, Bool.not_true, Bool.false_eq_true, if_false] at h
        cases h
      | false =>
        simp only [hm, Bool.not_false, if_true, Except.ok.injEq, Option.some.injEq] at h
        exact h.symm

/-- The error of `Custom`. -/
theorem Custom_error_eq (validator : Value → Bool) (msg : String) (field : String)
    (value : Value) (e : LayerError) (h : Custom validator msg field value = .ok (some e)) :
    e = NewValidationError ErrInvalidFormat msg [some [("field", .str field)]] :=
  (ite_result_eq _ _ _ h).2

/-! ## Theorems: a malformed pattern, details, messages -/

/-- C14, the counterexample: the pattern `(` is malformed (`regexp.MustCompile` panics on
it), yet `Pattern` builds a rule from it without failing, and that rule applied to the
integer 5 returns an INVALID_FORMAT error and does not panic. -/
theorem Pattern_malformed_counterexample :
    mustCompileExamples "(" = .error "regexp: Compile: error parsing regexp: missing closing )"
      ∧ Pattern mustCompileExamples "(" [] "phone" (.int 5)
        = .ok (some (NewValidationError ErrInvalidFormat "Field 'phone' must match pattern"
            [some [("field", .str "phone")]])) :=
  ⟨rfl, rfl⟩

/-- C14, amended: a malformed pattern (one on which `regexp.MustCompile` panics) does not
fail when `Pattern` builds the rule; the panic occurs when the rule is evaluated on a
value of the type `string`, on every such value, and on any other value the rule returns
an INVALID_FORMAT error and does not panic. -/
theorem Pattern_malformed_spec (mustCompile : String → Except String Regexp)
    (pattern panicText : String) (msg : List String) (field : String) (value : Value)
    (hbad : mustCompile pattern = .error panicText) :
    (∀ s : String, Pattern mustCompile pattern msg field (.str s) = .error panicText)
      ∧ ((∀ s : String, value ≠ .str s) →
          Pattern mustCompile pattern msg field value
            = .ok (some (NewValidationError ErrInvalidFormat
                (messageOr ("Field '" ++ field ++ "' must match pattern") msg)
                [some [("field", .str field)]])))
      ∧ ((∀ s : String, value ≠ .str s) →
          failsWith (Pattern mustCompile pattern msg field value) "INVALID_FORMAT") := by
  have hother : (∀ s : String, value ≠ .str s) →
      Pattern mustCompile pattern msg field value
        = .ok (some (NewValidationError ErrInvalidFormat
            (messageOr ("Field '" ++ field ++ "' must match pattern") msg)
            [some [("field", .str field)]])) := by
    intro hv
    cases value with
    | str s => exact absurd rfl (hv s)
    | nil => rfl
    | bool b => rfl
    | int i => rfl
    | float64 bits => rfl
    | namedStr t s => rfl
    | slice elems => rfl
    | array elems => rfl
    | goMap entries => rfl
    | struct t fields => rfl
    | pointer target => rfl
  refine ⟨?_, hother, fun hv => ?_⟩
  · intro s
    simp only [Pattern, hbad]
  · rw [hother hv]
    exact ⟨_, rfl, rfl⟩

/-- C14, amended, at the pattern `(`: the rule panics on the string "123-456-7890" and
returns an error on the boolean true. -/
theorem Pattern_malformed_spec_witness :
    Pattern mustCompileExamples "(" [] "phone" (.str "123-456-7890")
        = .error "regexp: Compile: error parsing regexp: missing closing )"
      ∧ failsWith (Pattern mustCompileExamples "(" [] "phone" (.bool true)) "INVALID_FORMAT" :=
  ⟨(Pattern_malformed_spec mustCompileExamples "(" _ [] "phone" (.bool true) rfl).1
      "123-456-7890",
    (Pattern_malformed_spec mustCompileExamples "(" _ [] "phone" (.bool true) rfl).2.2
      (fun s h => by cases h)⟩

/-- C15, the counterexample: the empty string does not match the pattern of `Email`, and
the error `Email` returns on it has no key "value" in its details (only "field"). -/
theorem Email_details_counterexample :
    emailRegex.MatchString "" = false
      ∧ Email [] "email" (.str "")
        = .ok (some (NewValidationError ErrInvalidEmail "Field 'email' must be a valid email"
            [some [("field", .str "email")]]))
      ∧ detailsGet
          (NewValidationError ErrInvalidEmail "Field 'email' must be a valid email"
            [some [("field", .str "email")]]).Details "value" = none :=
  ⟨rfl, rfl, rfl⟩

/-- C15, amended: the error a built-in rule returns on a field f carries "field" = f in
its details; that of `MinLength` also "min" = the bound, that of `MaxLength` "max" = the
bound, that of `Pattern` on a string "pattern" = the pattern, and that of `Email` on a
string that is not empty "value" = the string (its details are then exactly "field" and
"value"); on the empty string, as on a value that is not a string, the details of the
error of `Email` hold "field" only, and no "value". -/
theorem rule_details (field : String) (value : Value) (e : LayerError) :
    (∀ msg : List String, Required msg field value = .ok (some e) →
        detailsGet e.Details "field" = some (.str field))
      ∧ (∀ msg : List String, Email msg field value = .ok (some e) →
        detailsGet e.Details "field" = some (.str field))
      ∧ (∀ (n : Int) (msg : List String), MinLength n msg field value = .ok (some e) →
        detailsGet e.Details "field" = some (.str field)
          ∧ detailsGet e.Details "min" = some (.int n))
      ∧ (∀ (n : Int) (msg : List String), MaxLength n msg field value = .ok (some e) →
        detailsGet e.Details "field" = some (.str field)
          ∧ detailsGet e.Details "max" = some (.int n))
      ∧ (∀ (mustCompile : String → Except String Regexp) (pattern : String)
          (msg : List String), Pattern mustCompile pattern msg field value = .ok (some e) →
        detailsGet e.Details "field" = some (.str field)
          ∧ ((∃ s : String, value = .str s) →
            detailsGet e.Details "pattern" = some (.str pattern)))
      ∧ (∀ (validator : Value → Bool) (msg : String),
          Custom validator msg field value = .ok (some e) →
        detailsGet e.Details "field" = some (.str field))
      ∧ (∀ (msg : List String) (s : String), value = .str s → s ≠ "" →
          Email msg field value = .ok (some e) →
        detailsGet e.Details "value" = some (.str s))
      ∧ (∀ msg : List String, (∀ s : String, value = .str s → s = "") →
          Email msg field value = .ok (some e) →
        e.Details = some [("field", .str field)] ∧ detailsGet e.Details "value" = none)
      ∧ (∀ (msg : List String) (s : String), value = .str s → s ≠ "" →
          Email msg field value = .ok (some e) →
        e.Details = some [("field", .str field), ("value", .str s)]) := by
  refine ⟨?_, ?_, ?_, ?_, ?_, ?_, ?_, ?_, ?_⟩
  · intro msg h
    rw [Required_error_eq msg field value e h]
    rfl
  · intro msg h
    rcases Email_error_eq msg field value e h with ⟨he, _⟩ | ⟨s, _, _, _, he⟩
    · rw [he]
      rfl
    · rw [he]
      rfl
  · intro n msg h
    rw [MinLength_error_eq n msg field value e h]
    exact ⟨rfl, rfl⟩
  · intro n msg h
    rw [MaxLength_error_eq n msg field value e h]
    exact ⟨rfl, rfl⟩
  · intro mustCompile pattern msg h
    rcases Pattern_error_eq mustCompile pattern msg field value e h with
      ⟨he, hv⟩ | ⟨s, _, he⟩
    · rw [he]
      refine ⟨rfl, ?_⟩
      rintro ⟨s, hs⟩
      exact absurd hs (hv s)
    · rw [he]
      exact ⟨rfl, fun _ => rfl⟩
  · intro validator msg h
    rw [Custom_error_eq validator msg field value e h]
    rfl
  · intro msg s hs hne h
    rcases Email_error_eq msg field value e h with ⟨_, hempty⟩ | ⟨s1, hs1, _, _, he⟩
    · exact absurd (hempty s hs) hne
    · rw [hs] at hs1
      cases hs1
      rw [he]
      rfl
  · intro msg hv h
    rcases Email_error_eq msg field value e h with ⟨he, _⟩ | ⟨s1, hs1, hne1, _, _⟩
    · rw [he]
      exact ⟨rfl, rfl⟩
    · exact absurd (hv s1 hs1) hne1
  · intro msg s hs hne h
    rcases Email_error_eq msg field value e h with ⟨_, hempty⟩ | ⟨s1, hs1, _, _, he⟩
    · exact absurd (hempty s hs) hne
    · rw [hs] at hs1
      cases hs1
      rw [he]
      rfl

/-- C15, amended, at the value of `TestValidate_Email`, at the empty string and at an
integer: the error of `Email` on "invalid-email" carries "field" = "email" and "value" =
"invalid-email"; on "" and on 5 its details hold "field" only. -/
theorem rule_details_witness :
    detailsGet
        (NewValidationError ErrInvalidEmail "Field 'email' must be a valid email"
          [some [("field", .str "email"), ("value", .str "invalid-email")]]).Details "field"
        = some (.str "email")
      ∧ detailsGet
        (NewValidationError ErrInvalidEmail "Field 'email' must be a valid email"
          [some [("field", .str "email"), ("value", .str "invalid-email")]]).Details "value"
        = some (.str "invalid-email")
      ∧ ((NewValidationError ErrInvalidEmail "Field 'email' must be a valid email"
            [some [("field", .str "email")]]).Details = some [("field", .str "email")]
        ∧ detailsGet
          (NewValidationError ErrInvalidEmail "Field 'email' must be a valid email"
            [some [("field", .str "email")]]).Details "value" = none) :=
  ⟨(rule_details "email" (.str "invalid-email") _).2.1 [] rfl,
    (rule_details "email" (.str "invalid-email") _).2.2.2.2.2.2.1 [] "invalid-email" rfl
      (by decide) rfl,
    (rule_details "email" (.int 5)
      (NewValidationError ErrInvalidEmail "Field 'email' must be a valid email"
        [some [("field", .str "email")]])).2.2.2.2.2.2.2.1 []
      (fun s h => by cases h) rfl⟩

/-- Replacing the message leaves a pass a pass, a panic a panic, and an error an error
with the same code, type, layer and details. -/
theorem setMessage_spec (m : String) (r : Except String (Option LayerError)) :
    (setMessage m r = .ok none ↔ r = .ok none)
      ∧ (∀ p : String, setMessage m r = .error p ↔ r = .error p)
      ∧ (∀ e1 : LayerError, setMessage m r = .ok (some e1) →
          ∃ e : LayerError, r = .ok (some e) ∧ e1.Error = m ∧ e1.Code = e.Code
            ∧ e1.Details = e.Details ∧ e1.ErrType = e.ErrType ∧ e1.Layer = e.Layer) := by
  match r with
  | .ok none => simp [setMessage]
  | .error p => simp [setMessage]
  | .ok (some e) =>
    refine ⟨by simp [setMessage], by simp [setMessage], ?_⟩
    intro e1 h
    simp only [setMessage, Except.ok.injEq, Option.some.injEq] at h
    subst h
    exact ⟨e, rfl, rfl, rfl, rfl, rfl, rfl⟩

/-- A rule result built from a condition is the result with another message, the
message replaced. -/
theorem ite_eq_setMessage_ite (c : Prop) [Decidable c] (m : String) (e1 e0 : LayerError)
    (h : e1 = { e0 with message := m }) :
    (if c then .ok (some e1) else .ok none : Except String (Option LayerError))
      = setMessage m (if c then .ok (some e0) else .ok none) := by
  by_cases hc : c
  · simp only [hc, if_true, setMessage, h]
  · simp only [hc, if_false, setMessage]

/-- C16: with a custom message supplied, each of `Required`, `Email`, `MinLength`,
`MaxLength` and `Pattern` returns what it returns without one, the message of the error
replaced by the first message supplied: the rule passes, fails or panics on the same
inputs, with the same code and details. Without one, the message is the template of the
rule, filled with the field name and the bound. -/
theorem custom_message_spec (field : String) (value : Value) (m : String)
    (rest : List String) (n : Int) (mustCompile : String → Except String Regexp)
    (pattern : String) :
    (Required (m :: rest) field value = setMessage m (Required [] field value)
        ∧ ∀ e : LayerError, Required [] field value = .ok (some e) →
          e.Error = "Field '" ++ field ++ "' is required")
      ∧ (Email (m :: rest) field value = setMessage m (Email [] field value)
        ∧ ∀ e : LayerError, Email [] field value = .ok (some e) →
          e.Error = "Field '" ++ field ++ "' must be a valid email")
      ∧ (MinLength n (m :: rest) field value = setMessage m (MinLength n [] field value)
        ∧ ∀ e : LayerError, MinLength n [] field value = .ok (some e) →
          e.Error = "Field '" ++ field ++ "' must have at least " ++ toString n ++ " characters")
      ∧ (MaxLength n (m :: rest) field value = setMessage m (MaxLength n [] field value)
        ∧ ∀ e : LayerError, MaxLength n [] field value = .ok (some e) →
          e.Error = "Field '" ++ field ++ "' must have at most " ++ toString n ++ " characters")
      ∧ (Pattern mustCompile pattern (m :: rest) field value
          = setMessage m (Pattern mustCompile pattern [] field value)
        ∧ ∀ e : LayerError, Pattern mustCompile pattern [] field value = .ok (some e) →
          e.Error = "Field '" ++ field ++ "' must match pattern")
      ∧ (∀ r : Except String (Option LayerError),
          (setMessage m r = .ok none ↔ r = .ok none)
            ∧ (∀ p : String, setMessage m r = .error p ↔ r = .error p)
            ∧ (∀ e1 : LayerError, setMessage m r = .ok (some e1) →
              ∃ e : LayerError, r = .ok (some e) ∧ e1.Error = m ∧ e1.Code = e.Code
                ∧ e1.Details = e.Details ∧ e1.ErrType = e.ErrType ∧ e1.Layer = e.Layer))
      ∧ (MinLength 8 [] "password" (.str "123")
          = .ok (some (NewValidationError ErrInvalidFormat
              "Field 'password' must have at least 8 characters"
              [some [("field", .str "password"), ("min", .int 8)]])))
      ∧ (MaxLength (-3) [] "username" (.str "short")
          = .ok (some (NewValidationError ErrInvalidFormat
              "Field 'username' must have at most -3 characters"
              [some [("field", .str "username"), ("max", .int (-3))]]))) := by
  refine ⟨⟨?_, ?_⟩, ⟨?_, ?_⟩, ⟨?_, ?_⟩, ⟨?_, ?_⟩, ⟨?_, ?_⟩, fun r => setMessage_spec m r,
    ?_, ?_⟩
  · cases value with
    | nil => rfl
    | bool b => rfl
    | int i => rfl
    | float64 bits => rfl
    | str s => exact ite_eq_setMessage_ite (strings.TrimSpace s = "") m _ _ rfl
    | namedStr t s => exact ite_eq_setMessage_ite (strings.TrimSpace s = "") m _ _ rfl
    | slice elems => exact ite_eq_setMessage_ite (elems.length = 0) m _ _ rfl
    | array elems => exact ite_eq_setMessage_ite (elems.length = 0) m _ _ rfl
    | goMap entries => exact ite_eq_setMessage_ite (entries.length = 0) m _ _ rfl
    | struct t fields => rfl
    | pointer target => rfl
  · intro e h
    rw [Required_error_eq [] field value e h]
    rfl
  · cases value with
    | str s =>
      by_cases hs : s = ""
      · simp only [Email, hs, if_true, setMessage]
        rfl
      · cases hm : emailRegex.MatchString s with
        | true => simp only [Email, hs, hm, if_false, Bool.not_true, Bool.false_eq_true, setMessage]
        | false =>
          simp only [Email, hs, hm, if_false, Bool.not_false, if_true, setMessage]
          rfl
    | nil => rfl
    | bool b => rfl
    | int i => rfl
    | float64 bits => rfl
    | namedStr t s => rfl
    | slice elems => rfl
    | array elems => rfl
    | goMap entries => rfl
    | struct t fields => rfl
    | pointer target => rfl
  · intro e h
    rcases Email_error_eq [] field value e h with ⟨he, _⟩ | ⟨s, _, _, _, he⟩
    · rw [he]
      rfl
    · rw [he]
      rfl
  · cases value with
    | nil => rfl
    | bool b => rfl
    | int i => rfl
    | float64 bits => rfl
    | str s => exact ite_eq_setMessage_ite ((len s : Int) < n) m _ _ rfl
    | namedStr t s => exact ite_eq_setMessage_ite ((len s : Int) < n) m _ _ rfl
    | slice elems => exact ite_eq_setMessage_ite ((elems.length : Int) < n) m _ _ rfl
    | array elems => exact ite_eq_setMessage_ite ((elems.length : Int) < n) m _ _ rfl
    | goMap entries => rfl
    | struct t fields => rfl
    | pointer target => rfl
  · intro e h
    rw [MinLength_error_eq n [] field value e h]
    rfl
  · cases value with
    | nil => rfl
    | bool b => rfl
    | int i => rfl
    | float64 bits => rfl
    | str s => exact ite_eq_setMessage_ite ((len s : Int) > n) m _ _ rfl
    | namedStr t s => exact ite_eq_setMessage_ite ((len s : Int) > n) m _ _ rfl
    | slice elems => exact ite_eq_setMessage_ite ((elems.length : Int) > n) m _ _ rfl
    | array elems => exact ite_eq_setMessage_ite ((elems.length : Int) > n) m _ _ rfl
    | goMap entries => rfl
    | struct t fields => rfl
    | pointer target => rfl
  · intro e h
    rw [MaxLength_error_eq n [] field value e h]
    rfl
  · cases value with
    | str s =>
      cases hc : mustCompile pattern with
      | error p => simp only [Pattern, hc, setMessage]
      | ok re =>
        cases hm : re.MatchString s with
        | true => simp only [Pattern, hc, hm, Bool.not_true, Bool.false_eq_true, if_false, setMessage]
        | false =>
          simp only [Pattern, hc, hm, Bool.not_false, if_true, setMessage]
          rfl
    | nil => rfl
    | bool b => rfl
    | int i => rfl
    | float64 bits => rfl
    | namedStr t s => rfl
    | slice elems => rfl
    | array elems => rfl
    | goMap entries => rfl
    | struct t fields => rfl
    | pointer target => rfl
  · intro e h
    rcases Pattern_error_eq mustCompile pattern [] field value e h with ⟨he, _⟩ | ⟨s, _, he⟩
    · rw [he]
      rfl
    · rw [he]
      rfl
  · rfl
  · rfl

/-- C17: for every constructor, with the details argument omitted the details of the
error are a map without entries (the nil map: length zero, no key), and with a map
supplied they are that map. -/
theorem details_default (code : ErrorCode) (errType : ErrorType) (message : String)
    (d : Details) (rest : List Details) :
    ∀ mk ∈ ([NewInfrastructureError code message, NewApplicationError code errType message,
        NewDomainError code errType message, NewValidationError code message,
        NewAuthenticationError code message, NewAuthorizationError code message,
        NewNotFoundError code message, NewConflictError code message,
        NewBusinessRuleError code message] : List (List Details → LayerError)),
      detailsLen (mk []).Details = 0
        ∧ (∀ key : String, detailsGet (mk []).Details key = none)
        ∧ (mk []).Details = none
        ∧ (mk (d :: rest)).Details = d := by
  intro mk hmk
  simp only [List.mem_cons, List.mem_singleton, List.not_mem_nil, or_false] at hmk
  rcases hmk with rfl | rfl | rfl | rfl | rfl | rfl | rfl | rfl | rfl <;>
    exact ⟨rfl, fun _ => rfl, rfl, rfl⟩

/-- C17 at `NewNotFoundError`: without details the error has a map without entries, and
with the map `{"id": 7}` supplied it has that map. -/
theorem details_default_witness :
    detailsLen (NewNotFoundError "USER_NOT_FOUND" "User not found" []).Details = 0
      ∧ (NewNotFoundError "USER_NOT_FOUND" "User not found"
          [some [("id", .int 7)]]).Details = some [("id", .int 7)] :=
  ⟨(details_default "USER_NOT_FOUND" "not_found" "User not found" (some [("id", .int 7)]) []
      (NewNotFoundError "USER_NOT_FOUND" "User not found") (by simp)).1,
    (details_default "USER_NOT_FOUND" "not_found" "User not found" (some [("id", .int 7)]) []
      (NewNotFoundError "USER_NOT_FOUND" "User not found") (by simp)).2.2.2⟩

/-! ## Theorems: from validation to the protocol response -/

/-- An error the scan returns is the result of one of the rules. -/
theorem firstOutcome_error_mem (l : List (Except String (Option LayerError))) (e : LayerError)
    (h : firstOutcome l = .ok (some e)) : .ok (some e) ∈ l := by
  induction l with
  | nil => cases h
  | cons r l ih =>
    match r with
    | .ok none =>
      simp only [firstOutcome] at h
      exact List.mem_cons_of_mem _ (ih h)
    | .ok (some err) =>
      simp only [firstOutcome] at h
      rw [h]
      exact List.mem_cons_self _ _
    | .error p =>
      simp only [firstOutcome] at h
      cases h

/-- The error of a built-in rule is a validation error of the application layer, with one
of three codes. -/
theorem builtin_error_shape (opt : ValidationOption) (hb : IsBuiltin opt) (field : String)
    (value : Value) (e : LayerError) (h : opt field value = .ok (some e)) :
    ∃ (code : ErrorCode) (message : String) (d : Details),
      e = NewValidationError code message [d]
        ∧ (code = ErrMissingRequired ∨ code = ErrInvalidEmail ∨ code = ErrInvalidFormat) := by
  cases hb with
  | required msg => exact ⟨_, _, _, Required_error_eq msg field value e h, Or.inl rfl⟩
  | email msg =>
    rcases Email_error_eq msg field value e h with ⟨he, _⟩ | ⟨s, _, _, _, he⟩
    · exact ⟨_, _, _, he, Or.inr (Or.inl rfl)⟩
    · exact ⟨_, _, _, he, Or.inr (Or.inl rfl)⟩
  | minLength n msg => exact ⟨_, _, _, MinLength_error_eq n msg field value e h, Or.inr (Or.inr rfl)⟩
  | maxLength n msg => exact ⟨_, _, _, MaxLength_error_eq n msg field value e h, Or.inr (Or.inr rfl)⟩
  | pattern mustCompile pattern msg =>
    rcases Pattern_error_eq mustCompile pattern msg field value e h with ⟨he, _⟩ | ⟨s, _, he⟩
    · exact ⟨_, _, _, he, Or.inr (Or.inr rfl)⟩
    · exact ⟨_, _, _, he, Or.inr (Or.inr rfl)⟩
  | custom validator msg =>
    exact ⟨_, _, _, Custom_error_eq validator msg field value e h, Or.inr (Or.inr rfl)⟩

/-- C18: when the fields carry built-in rules only and `Validate` returns an error, the
error has the layer application and the type validation, its code is MISSING_REQUIRED,
INVALID_EMAIL or INVALID_FORMAT, the default HTTP handler gives it the status 400 and the
gRPC handler the code 3. -/
theorem builtin_end_to_end (fields : List ValidationField) (e : LayerError)
    (hb : ∀ f ∈ fields, ∀ opt ∈ f.Options, IsBuiltin opt)
    (hv : Validate fields = .ok (some e)) :
    e.Layer = "application" ∧ e.ErrType = "validation"
      ∧ e.Code ∈ ["MISSING_REQUIRED", "INVALID_EMAIL", "INVALID_FORMAT"]
      ∧ (NewDefaultHTTPErrorHandler.HandleHTTPError e).HTTPStatus = 400
      ∧ (NewDefaultGRPCErrorHandler.HandleGRPCError e).GRPCCode = 3 := by
  rw [Validate_eq_firstOutcome] at hv
  have hmem := firstOutcome_error_mem _ e hv
  simp only [ruleResults, List.mem_flatMap, List.mem_map] at hmem
  obtain ⟨f, hf, opt, hopt, hres⟩ := hmem
  obtain ⟨code, message, d, he, hcode⟩ :=
    builtin_error_shape opt (hb f hf opt hopt) f.Field f.Value e hres
  subst he
  have h1 : "MISSING_REQUIRED" ∈ ["MISSING_REQUIRED", "INVALID_EMAIL", "INVALID_FORMAT"] := by
    decide
  have h2 : "INVALID_EMAIL" ∈ ["MISSING_REQUIRED", "INVALID_EMAIL", "INVALID_FORMAT"] := by
    decide
  have h3 : "INVALID_FORMAT" ∈ ["MISSING_REQUIRED", "INVALID_EMAIL", "INVALID_FORMAT"] := by
    decide
  rcases hcode with rfl | rfl | rfl
  · exact ⟨rfl, rfl, h1, rfl, rfl⟩
  · exact ⟨rfl, rfl, h2, rfl, rfl⟩
  · exact ⟨rfl, rfl, h3, rfl, rfl⟩

/-- C18 at the field of the scenario: `Validate(Field("email", "invalid-email", Email()))`
returns an error with code INVALID_EMAIL, which the default HTTP handler gives 400 and
the gRPC handler 3. -/
theorem builtin_end_to_end_witness :
    Validate [Field "email" (.str "invalid-email") [Email []]]
        = .ok (some (NewValidationError ErrInvalidEmail "Field 'email' must be a valid email"
            [some [("field", .str "email"), ("value", .str "invalid-email")]]))
      ∧ (NewValidationError ErrInvalidEmail "Field 'email' must be a valid email"
            [some [("field", .str "email"), ("value", .str "invalid-email")]]).Code
          = "INVALID_EMAIL"
      ∧ (NewDefaultHTTPErrorHandler.HandleHTTPError
          (NewValidationError ErrInvalidEmail "Field 'email' must be a valid email"
            [some [("field", .str "email"), ("value", .str "invalid-email")]])).HTTPStatus = 400
      ∧ (NewDefaultGRPCErrorHandler.HandleGRPCError
          (NewValidationError ErrInvalidEmail "Field 'email' must be a valid email"
            [some [("field", .str "email"), ("value", .str "invalid-email")]])).GRPCCode = 3 :=
  have hb : ∀ f ∈ [Field "email" (.str "invalid-email") [Email []]], ∀ opt ∈ f.Options,
      IsBuiltin opt := by
    intro f hf opt hopt
    rw [List.mem_singleton.mp hf] at hopt
    rw [List.mem_singleton.mp hopt]
    exact IsBuiltin.email []
  ⟨rfl, rfl,
    (builtin_end_to_end [Field "email" (.str "invalid-email") [Email []]] _ hb rfl).2.2.2.1,
    (builtin_end_to_end [Field "email" (.str "invalid-email") [Email []]] _ hb rfl).2.2.2.2⟩

/-- What `List.lookup` finds is an entry of the list. -/
theorem mem_of_lookup_eq_some (m : List (String × Int)) (k : String) (v : Int)
    (h : m.lookup k = some v) : ∃ k1, (k1, v) ∈ m := by
  induction m with
  | nil => cases h
  | cons p rest ih =>
    obtain ⟨k1, v1⟩ := p
    by_cases hk : (k == k1) = true
    · simp only [List.lookup, hk, Option.some.injEq] at h
      subst h
      exact ⟨k1, List.mem_cons_self _ _⟩
    · have hk2 : (k == k1) = false := by simpa using hk
      simp only [List.lookup, hk2] at h
      obtain ⟨k2, hmem⟩ := ih h
      exact ⟨k2, List.mem_cons_of_mem _ hmem⟩

/-- The fallback status is one of eight. -/
theorem fallback_status_mem (h : DefaultHTTPErrorHandler) (t : ErrorType) :
    h.getFallbackHTTPStatus t ∈ ([400, 401, 403, 404, 409, 422, 424, 500] : List Int) := by
  unfold DefaultHTTPErrorHandler.getFallbackHTTPStatus
  split_ifs <;> decide

/-- The gRPC code is one of seven. -/
theorem grpc_code_mem (h : DefaultGRPCErrorHandler) (t : ErrorType) :
    h.mapToGRPCCode t ∈ ([3, 5, 6, 7, 13, 14, 16] : List Int) := by
  unfold DefaultGRPCErrorHandler.mapToGRPCCode
  split_ifs <;> decide

/-- C19: for every error, whatever its code string and its type string, the default HTTP
handler returns one of the statuses 400, 401, 403, 404, 409, 422, 424, 500, an HTTP error
status, and the gRPC handler one of the codes 3, 5, 6, 7, 13, 14, 16, a code from 1 to 16
that is not OK. -/
theorem status_ranges (g : DefaultGRPCErrorHandler) (e : LayerError) :
    (NewDefaultHTTPErrorHandler.HandleHTTPError e).HTTPStatus
        ∈ ([400, 401, 403, 404, 409, 422, 424, 500] : List Int)
      ∧ 400 ≤ (NewDefaultHTTPErrorHandler.HandleHTTPError e).HTTPStatus
      ∧ (NewDefaultHTTPErrorHandler.HandleHTTPError e).HTTPStatus ≤ 599
      ∧ (g.HandleGRPCError e).GRPCCode ∈ ([3, 5, 6, 7, 13, 14, 16] : List Int)
      ∧ 1 ≤ (g.HandleGRPCError e).GRPCCode
      ∧ (g.HandleGRPCError e).GRPCCode ≤ 16 := by
  have htable : ∀ p ∈ getDefaultErrorMapping,
      p.2 ∈ ([400, 401, 403, 404, 409, 422, 424, 500] : List Int) := by decide
  have hhttp : (NewDefaultHTTPErrorHandler.HandleHTTPError e).HTTPStatus
      ∈ ([400, 401, 403, 404, 409, 422, 424, 500] : List Int) := by
    cases hl : getDefaultErrorMapping.lookup e.Code with
    | none =>
      rw [HandleHTTPError_of_lookup_none NewDefaultHTTPErrorHandler e hl]
      exact fallback_status_mem _ _
    | some v =>
      rw [HandleHTTPError_of_lookup_some NewDefaultHTTPErrorHandler e v hl]
      obtain ⟨k1, hmem⟩ := mem_of_lookup_eq_some _ _ _ hl
      exact htable (k1, v) hmem
  have hgrpc : (g.HandleGRPCError e).GRPCCode ∈ ([3, 5, 6, 7, 13, 14, 16] : List Int) :=
    grpc_code_mem g e.ErrType
  refine ⟨hhttp, ?_, ?_, hgrpc, ?_, ?_⟩
  · simp only [List.mem_cons, List.mem_singleton, List.not_mem_nil, or_false] at hhttp
    omega
  · simp only [List.mem_cons, List.mem_singleton, List.not_mem_nil, or_false] at hhttp
    omega
  · simp only [List.mem_cons, List.mem_singleton, List.not_mem_nil, or_false] at hgrpc
    omega
  · simp only [List.mem_cons, List.mem_singleton, List.not_mem_nil, or_false] at hgrpc
    omega

/-- C20: the native translation embeds the generic one: the response part of
`HandleHTTPError` is `HandleError`, for every HTTP handler (default or custom table), the
response part of `HandleGRPCError` is the `HandleError` of the gRPC handler, and the gRPC
message is the message of the error; two HTTP handlers differ in the status only. -/
theorem native_embeds_generic (h h1 h2 : DefaultHTTPErrorHandler) (m : List (ErrorCode × Int))
    (g : DefaultGRPCErrorHandler) (e : LayerError) :
    (h.HandleHTTPError e).toProtocolResponse = h.HandleError e
      ∧ (NewDefaultHTTPErrorHandler.HandleHTTPError e).toProtocolResponse
        = NewDefaultHTTPErrorHandler.HandleError e
      ∧ ((NewCustomHTTPErrorHandler m).HandleHTTPError e).toProtocolResponse
        = (NewCustomHTTPErrorHandler m).HandleError e
      ∧ (g.HandleGRPCError e).toProtocolResponse = g.HandleError e
      ∧ (g.HandleGRPCError e).GRPCMessage = e.Error
      ∧ (h1.HandleHTTPError e).toProtocolResponse = (h2.HandleHTTPError e).toProtocolResponse
      ∧ h1.HandleHTTPError e
        = { h2.HandleHTTPError e with HTTPStatus := (h1.HandleHTTPError e).HTTPStatus } :=
  ⟨rfl, rfl, rfl, rfl, rfl, rfl, rfl⟩

/-! ## Theorems: short-circuit, byte lengths, the gRPC code, table and fallback -/

/-- The rule results of a concatenation of field lists. -/
theorem ruleResults_append (A B : List ValidationField) :
    ruleResults (A ++ B) = ruleResults A ++ ruleResults B := by
  simp [ruleResults, List.flatMap_append]

/-- The rule results of one field followed by others. -/
theorem ruleResults_cons (f : ValidationField) (B : List ValidationField) :
    ruleResults (f :: B) = (f.Options.map fun opt => opt f.Field f.Value) ++ ruleResults B := by
  simp [ruleResults, List.flatMap_cons]

/-- The scan of `Validate` over a concatenation. -/
theorem Validate_append_eq (A B : List ValidationField) :
    Validate (A ++ B) =
      match Validate A with
      | .ok none => Validate B
      | .ok (some err) => .ok (some err)
      | .error p => .error p := by
  have h := firstOutcome_append (ruleResults A) (ruleResults B)
  rw [← ruleResults_append, ← Validate_eq_firstOutcome (A ++ B),
    ← Validate_eq_firstOutcome A, ← Validate_eq_firstOutcome B] at h
  refine h.trans ?_
  cases Validate A with
  | error p => rfl
  | ok o =>
    cases o with
    | none => rfl
    | some err => rfl

/-- Once a rule fails after passes only, what follows it plays no part. -/
theorem Validate_after_failure (A B : List ValidationField) (field : String) (value : Value)
    (pre post : List ValidationOption) (r : ValidationOption) (e : LayerError)
    (hA : Validate A = .ok none) (hpre : ∀ opt ∈ pre, opt field value = .ok none)
    (hr : r field value = .ok (some e)) :
    Validate (A ++ Field field value (pre ++ r :: post) :: B) = .ok (some e) := by
  rw [Validate_append_eq, hA]
  show Validate (validation.Field field value (pre ++ r :: post) :: B) = .ok (some e)
  rw [Validate_eq_firstOutcome, ruleResults_cons]
  simp only [validation.Field, List.map_append, List.map_cons, List.append_assoc,
    List.cons_append]
  rw [firstOutcome_append_of_pass, hr]
  · rfl
  · intro x hx
    obtain ⟨opt, hopt, rfl⟩ := List.mem_map.mp hx
    exact hpre opt hopt

/-- C21: `Validate (A ++ B)` is `Validate A` when that is an error (or a panic) and
`Validate B` when `Validate A` is nil. So once a rule fails, the rules before it having
passed, the rules and fields after it play no part: replaced by any others, one that
would panic when evaluated included, they leave the returned error unchanged and no panic
is raised. -/
theorem Validate_short_circuit (A B : List ValidationField) :
    (Validate (A ++ B) =
        match Validate A with
        | .ok none => Validate B
        | .ok (some err) => .ok (some err)
        | .error p => .error p)
      ∧ (∀ e : LayerError, Validate A = .ok (some e) → Validate (A ++ B) = Validate A)
      ∧ (Validate A = .ok none → Validate (A ++ B) = Validate B)
      ∧ (∀ (field : String) (value : Value) (pre post post2 : List ValidationOption)
          (r : ValidationOption) (B2 : List ValidationField) (e : LayerError),
          Validate A = .ok none → (∀ opt ∈ pre, opt field value = .ok none) →
          r field value = .ok (some e) →
          Validate (A ++ Field field value (pre ++ r :: post) :: B) = .ok (some e)
            ∧ Validate (A ++ Field field value (pre ++ r :: post2) :: B2) = .ok (some e))
      ∧ (Pattern mustCompileExamples "(" [] "email" (.str "invalid")
          = .error "regexp: Compile: error parsing regexp: missing closing )")
      ∧ (Validate
          [Field "email" (.str "invalid") [Required [], Email [], MinLength 8 []],
            Field "password" (.str "123") [Required [], MinLength 8 []]]
          = .ok (some (NewValidationError ErrInvalidEmail "Field 'email' must be a valid email"
              [some [("field", .str "email"), ("value", .str "invalid")]])))
      ∧ (Validate
          [Field "email" (.str "invalid")
              [Required [], Email [], Pattern mustCompileExamples "(" []],
            Field "password" (.str "123") [Pattern mustCompileExamples "(" []]]
          = .ok (some (NewValidationError ErrInvalidEmail "Field 'email' must be a valid email"
              [some [("field", .str "email"), ("value", .str "invalid")]]))) := by
  refine ⟨Validate_append_eq A B, ?_, ?_, ?_, rfl, rfl, rfl⟩
  · intro e he
    rw [Validate_append_eq, he]
  · intro hA
    rw [Validate_append_eq, hA]
  · intro field value pre post post2 r B2 e hA hpre hr
    exact ⟨Validate_after_failure A B field value pre post r e hA hpre hr,
      Validate_after_failure A B2 field value pre post2 r e hA hpre hr⟩

/-- C22, the code at a string with a two-byte character: "é" has one character and two
bytes; `MinLength 2` passes on it, though it has fewer than 2 characters, and
`MaxLength 1` fails on it, with a message that speaks of characters, though it has no
more than 1 character. -/
theorem length_rules_count_bytes :
    "é".length = 1 ∧ len "é" = 2
      ∧ MinLength 2 [] "name" (.str "é") = .ok none
      ∧ MaxLength 1 [] "name" (.str "é")
        = .ok (some (NewValidationError ErrInvalidFormat
            "Field 'name' must have at most 1 characters"
            [some [("field", .str "name"), ("max", .int 1)]]))
      ∧ MinLength 3 [] "name" (.str "é")
        = .ok (some (NewValidationError ErrInvalidFormat
            "Field 'name' must have at least 3 characters"
            [some [("field", .str "name"), ("min", .int 3)]])) :=
  ⟨rfl, rfl, rfl, rfl, rfl⟩

/-- C23: the gRPC code depends on the type of the error alone: two errors of the same
type get the same code, whatever their codes, layers, messages and details, and whatever
the handler, since a gRPC handler holds no table (any two are equal). -/
theorem grpc_code_by_type (g1 g2 : DefaultGRPCErrorHandler) (e1 e2 : LayerError)
    (ht : e1.ErrType = e2.ErrType) :
    (g1.HandleGRPCError e1).GRPCCode = (g2.HandleGRPCError e2).GRPCCode ∧ g1 = g2 := by
  refine ⟨?_, rfl⟩
  show g1.mapToGRPCCode e1.ErrType = g2.mapToGRPCCode e2.ErrType
  rw [ht]

/-- C23 at two errors of the type not_found that differ in code, layer, message and
details: both get the code 5. -/
theorem grpc_code_by_type_witness :
    (NewDefaultGRPCErrorHandler.HandleGRPCError
        (NewNotFoundError ErrUserNotFound "User not found" [])).GRPCCode
      = (NewDefaultGRPCErrorHandler.HandleGRPCError
        (NewApplicationError ErrInvalidEmail NotFoundError "no such address"
          [some [("field", .str "email")]])).GRPCCode
      ∧ NewDefaultGRPCErrorHandler = NewDefaultGRPCErrorHandler :=
  grpc_code_by_type NewDefaultGRPCErrorHandler NewDefaultGRPCErrorHandler
    (NewNotFoundError ErrUserNotFound "User not found" [])
    (NewApplicationError ErrInvalidEmail NotFoundError "no such address"
      [some [("field", .str "email")]]) rfl

/-- C24: for each of the 18 predefined codes, taken with the type of its group, the
status of the default table is the fallback status of the type; so an error with a
predefined code and the type of its group gets the same HTTP status from the default
handler and from a handler built on an empty (or nil) table. -/
theorem table_agrees_with_fallback (e : LayerError)
    (hcanon : (e.Code, e.ErrType) ∈ predefinedCodes) :
    (NewDefaultHTTPErrorHandler.HandleHTTPError e).HTTPStatus
        = ((NewCustomHTTPErrorHandler []).HandleHTTPError e).HTTPStatus
      ∧ getDefaultErrorMapping.lookup e.Code
        = some (NewDefaultHTTPErrorHandler.getFallbackHTTPStatus e.ErrType)
      ∧ predefinedCodes.length = 18
      ∧ predefinedCodes.map Prod.fst = getDefaultErrorMapping.map Prod.fst
      ∧ (∀ p ∈ predefinedCodes, getDefaultErrorMapping.lookup p.1
          = some (NewDefaultHTTPErrorHandler.getFallbackHTTPStatus p.2)) := by
  have hall : ∀ p ∈ predefinedCodes, getDefaultErrorMapping.lookup p.1
      = some (NewDefaultHTTPErrorHandler.getFallbackHTTPStatus p.2) := by decide
  have hl := hall (e.Code, e.ErrType) hcanon
  refine ⟨?_, hl, rfl, rfl, hall⟩
  rw [HandleHTTPError_of_lookup_some NewDefaultHTTPErrorHandler e _ hl]
  exact (HandleHTTPError_of_lookup_none (NewCustomHTTPErrorHandler []) e rfl).symm

/-- C24 at `NewConflictError(EMAIL_ALREADY_TAKEN, ...)`: 409 from the default handler and
from a handler with an empty table. -/
theorem table_agrees_with_fallback_witness :
    (NewDefaultHTTPErrorHandler.HandleHTTPError
        (NewConflictError ErrEmailAlreadyTaken "taken" [])).HTTPStatus = 409
      ∧ ((NewCustomHTTPErrorHandler []).HandleHTTPError
        (NewConflictError ErrEmailAlreadyTaken "taken" [])).HTTPStatus = 409 :=
  ⟨rfl,
    (table_agrees_with_fallback (NewConflictError ErrEmailAlreadyTaken "taken" [])
      (by decide)).1.symm.trans rfl⟩

/-! ## Theorems: the strings `Email` accepts -/

/-- The rule `Email` either passes or fails with INVALID_EMAIL; it passes on the strings of
the form of an address only. -/
theorem Email_pass_or_fail (msg : List String) (field : String) (value : Value) :
    (Email msg field value = .ok none ∧ ∃ s : String, value = .str s ∧ isEmailForm s)
      ∨ failsWith (Email msg field value) "INVALID_EMAIL" := by
  cases value with
  | str s =>
    by_cases hs : s = ""
    · right
      simp only [Email, hs, if_true]
      exact ⟨_, rfl, rfl⟩
    · cases hm : emailRegex.MatchString s with
      | true =>
        left
        refine ⟨?_, s, rfl, (emailRegex_MatchString_iff s).mp hm⟩
        simp only [Email, hs, hm, if_false, Bool.not_true, Bool.false_eq_true]
      | false =>
        right
        simp only [Email, hs, hm, if_false, Bool.not_false, if_true]
        exact ⟨_, rfl, rfl⟩
  | nil => exact Or.inr ⟨_, rfl, rfl⟩
  | bool b => exact Or.inr ⟨_, rfl, rfl⟩
  | int i => exact Or.inr ⟨_, rfl, rfl⟩
  | float64 bits => exact Or.inr ⟨_, rfl, rfl⟩
  | namedStr t s => exact Or.inr ⟨_, rfl, rfl⟩
  | slice elems => exact Or.inr ⟨_, rfl, rfl⟩
  | array elems => exact Or.inr ⟨_, rfl, rfl⟩
  | goMap entries => exact Or.inr ⟨_, rfl, rfl⟩
  | struct t fields => exact Or.inr ⟨_, rfl, rfl⟩
  | pointer target => exact Or.inr ⟨_, rfl, rfl⟩

/-- A value `Email` passes is a string of the form of an address. -/
theorem Email_pass_form (msg : List String) (field : String) (value : Value)
    (h : Email msg field value = .ok none) : ∃ s : String, value = .str s ∧ isEmailForm s := by
  rcases Email_pass_or_fail msg field value with ⟨_, hform⟩ | hfail
  · exact hform
  · rw [h] at hfail
    exact absurd hfail (not_failsWith_pass _)

/-- A string of the form of an address is not empty once trimmed: it holds an `@`. -/
theorem TrimSpace_ne_empty_of_form (s : String) (h : isEmailForm s) :
    strings.TrimSpace s ≠ "" := by
  intro hempty
  obtain ⟨loc, dom, tld, hs, _⟩ := h
  have hall := (TrimSpace_eq_empty_iff s).mp hempty
  have hat : '@' ∈ s.data := by
    rw [hs]
    exact List.mem_append_right _ (List.mem_cons_self _ _)
  have hsp := hall '@' hat
  revert hsp
  decide

/-- C25: a value `Email` passes, `Required` passes; so a field that declares `Required`
then `Email` passes as a whole on every value `Email` passes, and a value that fails
`Required` fails `Email`. -/
theorem Email_subsumes_Required (msg1 msg2 : List String) (field : String) (value : Value) :
    (Email msg1 field value = .ok none → Required msg2 field value = .ok none)
      ∧ (Email msg1 field value = .ok none →
          Validate [Field field value [Required msg2, Email msg1]] = .ok none)
      ∧ (failsWith (Required msg2 field value) "MISSING_REQUIRED" →
          failsWith (Email msg1 field value) "INVALID_EMAIL")
      ∧ Validate [Field "email" (.str "test@example.com") [Required [], Email []]] = .ok none
      ∧ (failsWith (Required [] "email" (.str "  ")) "MISSING_REQUIRED"
          ∧ failsWith (Email [] "email" (.str "  ")) "INVALID_EMAIL") := by
  have hreq : Email msg1 field value = .ok none → Required msg2 field value = .ok none := by
    intro h
    obtain ⟨s, rfl, hform⟩ := Email_pass_form msg1 field _ h
    have hne := TrimSpace_ne_empty_of_form s hform
    simp only [Required, Value.Kind, Value.String, hne, if_false]
  refine ⟨hreq, ?_, ?_, rfl, ⟨_, rfl, rfl⟩, ⟨_, rfl, rfl⟩⟩
  · intro h
    simp only [Validate, validation.Field, validateOptions, hreq h, h]
  · intro hfail
    rcases Email_pass_or_fail msg1 field value with ⟨hpass, _⟩ | hf
    · rw [hreq hpass] at hfail
      exact absurd hfail (not_failsWith_pass _)
    · exact hf

/-- The order of characters, read on their code points. -/
theorem char_le_iff_toNat (a b : Char) : a ≤ b ↔ a.toNat ≤ b.toNat := Iff.rfl

/-- A character of the local class is not white space. -/
theorem isLocalChar_not_space (c : Char) (h : isLocalChar c) : unicode.IsSpace c = false := by
  have hn : (65 ≤ c.toNat ∧ c.toNat ≤ 90) ∨ (97 ≤ c.toNat ∧ c.toNat ≤ 122)
      ∨ (48 ≤ c.toNat ∧ c.toNat ≤ 57) ∨ c.toNat = 46 ∨ c.toNat = 95 ∨ c.toNat = 37
      ∨ c.toNat = 43 ∨ c.toNat = 45 := by
    rcases h with h | h | h | h | h | h | h | h
    · exact Or.inl ⟨(char_le_iff_toNat _ _).mp h.1, (char_le_iff_toNat _ _).mp h.2⟩
    · exact Or.inr (Or.inl ⟨(char_le_iff_toNat _ _).mp h.1, (char_le_iff_toNat _ _).mp h.2⟩)
    · exact Or.inr (Or.inr (Or.inl
        ⟨(char_le_iff_toNat _ _).mp h.1, (char_le_iff_toNat _ _).mp h.2⟩))
    · exact Or.inr (Or.inr (Or.inr (Or.inl (by rw [h]; rfl))))
    · exact Or.inr (Or.inr (Or.inr (Or.inr (Or.inl (by rw [h]; rfl)))))
    · exact Or.inr (Or.inr (Or.inr (Or.inr (Or.inr (Or.inl (by rw [h]; rfl))))))
    · exact Or.inr (Or.inr (Or.inr (Or.inr (Or.inr (Or.inr (Or.inl (by rw [h]; rfl)))))))
    · exact Or.inr (Or.inr (Or.inr (Or.inr (Or.inr (Or.inr (Or.inr (by rw [h]; rfl)))))))
  unfold unicode.IsSpace
  generalize c.toNat = n at hn
  have h255 : n ≤ 255 := by omega
  simp only [h255, if_true, Bool.or_eq_false_iff, decide_eq_false_iff_not]
  omega

/-- The byte length of a string is at least its number of characters. -/
theorem length_le_len (s : String) : s.length ≤ len s := by
  have hgo : ∀ l : List Char, l.length ≤ String.utf8ByteSize.go l := by
    intro l
    induction l with
    | nil => exact Nat.le_refl _
    | cons c cs ih =>
      have hpos : 0 < c.utf8Size := Char.utf8Size_pos c
      simp only [List.length_cons, String.utf8ByteSize.go]
      omega
  exact hgo s.data

/-- C26: a string `Email` accepts holds exactly one `@`, no white space and no character
outside `[A-Za-z0-9._%+-@]`, has a character before the `@`, and ends with a `.` followed
by two or more ASCII letters; so its length, in characters and in bytes, is at least 6. -/
theorem Email_accepted_shape (msg : List String) (field : String) (s : String)
    (h : Email msg field (.str s) = .ok none) :
    s.data.count '@' = 1
      ∧ (∀ c ∈ s.data, unicode.IsSpace c = false)
      ∧ (∀ c ∈ s.data, isLocalChar c ∨ c = '@')
      ∧ (∃ before after : List Char, s.data = before ++ '@' :: after ∧ before ≠ [])
      ∧ (∃ front tld : List Char, s.data = front ++ '.' :: tld ∧ 2 ≤ tld.length
          ∧ ∀ c ∈ tld, isAsciiLetter c)
      ∧ 6 ≤ s.length ∧ 6 ≤ len s := by
  obtain ⟨s1, hs1, hform⟩ := Email_pass_form msg field _ h
  cases hs1
  obtain ⟨loc, dom, tld, hs, hloc1, hloc2, hdom1, hdom2, htld1, htld2⟩ := hform
  have hdomloc : ∀ c, isDomainChar c → isLocalChar c := by
    intro c hc
    rcases hc with hc | hc | hc | hc | hc
    · exact Or.inl hc
    · exact Or.inr (Or.inl hc)
    · exact Or.inr (Or.inr (Or.inl hc))
    · exact Or.inr (Or.inr (Or.inr (Or.inl hc)))
    · exact Or.inr (Or.inr (Or.inr (Or.inr (Or.inr (Or.inr (Or.inr hc))))))
  have hletloc : ∀ c, isAsciiLetter c → isLocalChar c := by
    intro c hc
    rcases hc with hc | hc
    · exact Or.inl hc
    · exact Or.inr (Or.inl hc)
  have hnotat : ¬ isLocalChar '@' := by
    unfold isLocalChar
    decide
  have hdotloc : isLocalChar '.' := Or.inr (Or.inr (Or.inr (Or.inl rfl)))
  have hchars : ∀ c ∈ s.data, isLocalChar c ∨ c = '@' := by
    intro c hc
    rw [hs] at hc
    simp only [List.mem_append, List.mem_cons] at hc
    rcases hc with hc | hc | hc | hc | hc
    · exact Or.inl (hloc2 c hc)
    · exact Or.inr hc
    · exact Or.inl (hdomloc c (hdom2 c hc))
    · rw [hc]
      exact Or.inl hdotloc
    · exact Or.inl (hletloc c (htld2 c hc))
  have hcount0 : ∀ l : List Char, (∀ c ∈ l, isLocalChar c) → l.count '@' = 0 := by
    intro l hl
    rw [List.count_eq_zero]
    intro hmem
    exact hnotat (hl '@' hmem)
  have hlenpos : ∀ l : List Char, l ≠ [] → 1 ≤ l.length := fun l hl =>
    List.length_pos.mpr hl
  refine ⟨?_, ?_, hchars, ⟨loc, dom ++ '.' :: tld, hs, hloc1⟩, ?_, ?_, ?_⟩
  · rw [hs]
    have h1 := hcount0 loc hloc2
    have h2 := hcount0 dom (fun c hc => hdomloc c (hdom2 c hc))
    have h3 := hcount0 tld (fun c hc => hletloc c (htld2 c hc))
    have h4 : ('.' == '@') = false := by decide
    simp [List.count_append, List.count_cons, h1, h2, h3, h4]
  · intro c hc
    rcases hchars c hc with hl | hat
    · exact isLocalChar_not_space c hl
    · rw [hat]
      decide
  · refine ⟨loc ++ '@' :: dom, tld, ?_, htld1, htld2⟩
    rw [hs]
    simp
  · have hl : s.length = s.data.length := rfl
    rw [hl, hs]
    have := hlenpos loc hloc1
    have := hlenpos dom hdom1
    simp only [List.length_append, List.length_cons]
    omega
  · have hl : s.length = s.data.length := rfl
    have hle := length_le_len s
    rw [hl, hs] at hle
    have := hlenpos loc hloc1
    have := hlenpos dom hdom1
    simp only [List.length_append, List.length_cons] at hle
    omega

/-- C26 at "test@example.com": one `@`, no white space, 16 characters. -/
theorem Email_accepted_shape_witness :
    "test@example.com".data.count '@' = 1
      ∧ (∀ c ∈ "test@example.com".data, unicode.IsSpace c = false)
      ∧ 6 ≤ "test@example.com".length :=
  ⟨(Email_accepted_shape [] "email" "test@example.com" rfl).1,
    (Email_accepted_shape [] "email" "test@example.com" rfl).2.1,
    (Email_accepted_shape [] "email" "test@example.com" rfl).2.2.2.2.2.1⟩
